import Mathlib

/-!
# snitch: Gitea credentials and issue client (`gitea.go`)

A shallow embedding of `gitea.go` and the properties of its credential
parser, credential resolver and issue client.

Go strings are immutable byte sequences, so they are modelled as lists of
bytes; string literals of the source are written with `lit`.
-/

namespace Snitch

/-! ## Go strings -/

/-- One byte of a Go string. -/
abbrev Byte := Fin 256

/-- A Go `string`: a sequence of bytes. -/
abbrev GoString := List Byte

/-- UTF-8 encoding of one code point, as the Go compiler stores a literal. -/
def utf8 (c : Char) : GoString :=
  let n := c.toNat
  if n < 0x80 then [Fin.ofNat n]
  else if n < 0x800 then [Fin.ofNat (0xC0 + n / 0x40), Fin.ofNat (0x80 + n % 0x40)]
  else if n < 0x10000 then
    [Fin.ofNat (0xE0 + n / 0x1000), Fin.ofNat (0x80 + n / 0x40 % 0x40),
      Fin.ofNat (0x80 + n % 0x40)]
  else
    [Fin.ofNat (0xF0 + n / 0x40000), Fin.ofNat (0x80 + n / 0x1000 % 0x40),
      Fin.ofNat (0x80 + n / 0x40 % 0x40), Fin.ofNat (0x80 + n % 0x40)]

/-- The bytes of a string literal. -/
def lit (s : String) : GoString :=
  s.data.flatMap utf8

/-- The byte `':'`. -/
def colon : Byte := 58

/-- The byte `','`. -/
def comma : Byte := 44

/-- Loop of `strings.Split` for a one-byte separator: `cur` holds the bytes of
the piece being read, `s` the bytes still to scan. -/
def splitAux (sep : Byte) : GoString → GoString → List GoString
  | cur, [] => [cur]
  | cur, b :: s => if b = sep then cur :: splitAux sep [] s else splitAux sep (cur ++ [b]) s

/-- `strings.Split(s, sep)` for a one-byte separator `sep`, the only form the
source calls (`":"` and `","`): the pieces of `s` between the occurrences of
`sep`, one more than there are occurrences. -/
def Split (s : GoString) (sep : Byte) : List GoString :=
  splitAux sep [] s

/-! ## Errors -/

/-- A Go `error` value, identified by the text its `Error()` method returns. -/
structure GoError where
  msg : GoString
deriving DecidableEq, Repr

/-! ## Credentials -/

/-- `GiteaCredentials` (gitea.go:18): the personal token and the host. -/
structure GiteaCredentials where
  Host : GoString
  PersonalToken : GoString
deriving DecidableEq, Repr

/-- `GiteaCredentialsFromToken` (gitea.go:87): a credential from a string of the
form `token` or `host:token`. The result is the Go pair `(GiteaCredentials, error)`,
the error being `none` for `nil`. `fmt.Errorf` with the verb `%s` writes the bytes
of its string argument unchanged after the fixed text. -/
def GiteaCredentialsFromToken (token : GoString) : GiteaCredentials × Option GoError :=
  let credentials := Split token colon
  match credentials with
  | [c0] => ({ Host := lit "gitlab.com", PersonalToken := c0 }, none)
  | [c0, c1] => ({ Host := c0, PersonalToken := c1 }, none)
  | _ => ({ Host := [], PersonalToken := [] },
      some ⟨lit "Couldn't parse GitLab credentials from ENV: " ++ token⟩)

/-! ## Outcomes of running Go code -/

/-- How a call ends: it returns a value, panics at run time, or ends the process
with `os.Exit`. -/
inductive Outcome (α : Type) where
  | ret (a : α)
  | panic
  | exit (code : Int)
deriving DecidableEq, Repr

/-- A call that also writes to `os.Stderr`: the lines written, in order, and how
the call ended. -/
structure Run (α : Type) where
  stderr : List GoString
  outcome : Outcome α
deriving DecidableEq, Repr

/-! ## `strconv.Itoa` and the conversion `int(float64)` -/

/-- A Go `float64`, by its IEEE-754 binary64 bit pattern (`math.Float64bits`),
read modulo `2^64`: bit 63 is the sign, bits 52..62 the biased exponent, bits
0..51 the fraction. -/
structure Float64 where
  bits : Nat
deriving DecidableEq, Repr

/-- Sign bit: `true` for a negative number (and for `-0`). -/
def Float64.sign (f : Float64) : Bool := f.bits / 2 ^ 63 % 2 = 1

/-- Biased exponent field. -/
def Float64.exp (f : Float64) : Nat := f.bits / 2 ^ 52 % 2048

/-- Fraction field. -/
def Float64.frac (f : Float64) : Nat := f.bits % 2 ^ 52

/-- Whether `f` is a number, neither an infinity nor a NaN. -/
def Float64.isFinite (f : Float64) : Bool := f.exp ≠ 2047

/-- Significand `m` of a finite `f`, whose magnitude is `m * 2 ^ (scale - 1075)`. -/
def Float64.mant (f : Float64) : Nat := if f.exp = 0 then f.frac else 2 ^ 52 + f.frac

/-- Exponent of the significand, biased by 1075 (subnormals use exponent 1). -/
def Float64.scale (f : Float64) : Nat := if f.exp = 0 then 1 else f.exp

/-- Magnitude of a finite `f` with its fraction discarded. -/
def Float64.truncAbs (f : Float64) : Nat :=
  if 1075 ≤ f.scale then f.mant * 2 ^ (f.scale - 1075) else f.mant / 2 ^ (1075 - f.scale)

/-- Finite `f` with its fraction discarded (truncation towards zero). -/
def Float64.trunc (f : Float64) : Int :=
  if f.sign then -(f.truncAbs : Int) else (f.truncAbs : Int)

/-- Whether the finite `f` has no fractional part. -/
def Float64.isIntegral (f : Float64) : Bool :=
  decide (1075 ≤ f.scale) || decide (f.mant % 2 ^ (1075 - f.scale) = 0)

/-- The integer that `f` holds exactly, when `f` is finite and has no fractional
part; this is what a JSON number `n` decodes to when `float64` represents `n`. -/
def Float64.toInt? (f : Float64) : Option Int :=
  if f.isFinite && f.isIntegral then some f.trunc else none

/-- What the Go language leaves to the platform: the width of `int` (32 or 64)
and the result of `int(f)` when `int` cannot represent `f` with its fraction
discarded (the Go specification makes that result implementation-dependent). -/
structure Platform where
  intBits : Nat
  floatToIntOther : Float64 → Int

/-- The conversion `int(f)` of a `float64`: the fraction is discarded; a value
out of the range of `int` gives the platform's result, an `int` all the same. -/
def Platform.int (P : Platform) (f : Float64) : Int :=
  if f.isFinite ∧ -(2 : Int) ^ (P.intBits - 1) ≤ f.trunc ∧ f.trunc < (2 : Int) ^ (P.intBits - 1)
  then f.trunc
  else (P.floatToIntOther f).bmod (2 ^ P.intBits)

/-- A 64-bit platform whose conversion gives the smallest `int` for every value
out of range, as the amd64 instruction `CVTTSD2SQ` does. -/
def amd64 : Platform where
  intBits := 64
  floatToIntOther := fun _ => -(2 : Int) ^ 63

/-- Decimal digits of a natural number, most significant first. -/
def digits (n : Nat) : GoString :=
  (Nat.toDigits 10 n).map fun c => Fin.ofNat c.toNat

/-- `strconv.Itoa`: the decimal text of an `int`, with `-` before a negative one. -/
def Itoa (i : Int) : GoString :=
  if i < 0 then lit "-" ++ digits (-i).toNat else digits i.toNat

/-! ## `net/url` -/

/-- `shouldEscape(c, encodeQueryComponent)` of `net/url`: every byte except the
ASCII letters, the digits and `-`, `_`, `.`, `~`. -/
def shouldEscape (c : Byte) : Bool :=
  if (97 ≤ c.val ∧ c.val ≤ 122) ∨ (65 ≤ c.val ∧ c.val ≤ 90) ∨ (48 ≤ c.val ∧ c.val ≤ 57) then false
  else if c ∈ lit "-_.~" then false
  else true

/-- The table `upperhex` of `net/url`. -/
def upperhex (n : Nat) : Byte :=
  (lit "0123456789ABCDEF").getD n 0

/-- `url.QueryEscape`: a space becomes `+`, every other byte that `shouldEscape`
selects becomes `%` and its two upper-case hexadecimal digits. -/
def QueryEscape (s : GoString) : GoString :=
  s.flatMap fun c =>
    if c = 32 then lit "+"
    else if shouldEscape c then lit "%" ++ [upperhex (c.val / 16), upperhex (c.val % 16)]
    else [c]

/-- Order `<` of Go strings: lexicographic on the bytes. -/
def strLt : GoString → GoString → Bool
  | [], [] => false
  | [], _ :: _ => true
  | _ :: _, [] => false
  | x :: a, y :: b => decide (x < y) || (decide (x = y) && strLt a b)

/-- `url.Values`, a `map[string][]string`: its entries, kept in ascending order of
the keys, the order in which `Encode` reads them. -/
abbrev Values := List (GoString × List GoString)

/-- `Values.Add`: appends `value` to the values of `key`. -/
def Values.Add : Values → GoString → GoString → Values
  | [], key, value => [(key, [value])]
  | (k, vs) :: m, key, value =>
    if key = k then (k, vs ++ [value]) :: m
    else if strLt key k then (key, [value]) :: (k, vs) :: m
    else (k, vs) :: Values.Add m key value

/-- `Values.Encode`: `key=value` for every value of every key, keys in ascending
order, both sides escaped, joined by `&`. -/
def Values.Encode (v : Values) : GoString :=
  v.foldl
    (fun buf kv =>
      kv.2.foldl
        (fun buf value =>
          (if buf.length > 0 then buf ++ lit "&" else buf) ++
            QueryEscape kv.1 ++ lit "=" ++ QueryEscape value)
        buf)
    []

/-! ## `net/http` requests and the transport -/

/-- `validHeaderFieldByte` of `net/textproto`: the token bytes of RFC 7230,
letters, digits and the 15 marks, here by their codes. -/
def validHeaderFieldByte (c : Byte) : Bool :=
  decide ((97 ≤ c.val ∧ c.val ≤ 122) ∨ (65 ≤ c.val ∧ c.val ≤ 90) ∨ (48 ≤ c.val ∧ c.val ≤ 57)) ||
    decide (c.val ∈ [33, 35, 36, 37, 38, 39, 42, 43, 45, 46, 94, 95, 96, 124, 126])

/-- Loop of `canonicalMIMEHeaderKey`: upper case for the first letter and for a
letter after `-`, lower case for the others. -/
def canonLoop : Bool → GoString → GoString
  | _, [] => []
  | upper, c :: s =>
    let c1 : Byte :=
      if upper && decide (97 ≤ c.val ∧ c.val ≤ 122) then Fin.ofNat (c.val - 32)
      else if !upper && decide (65 ≤ c.val ∧ c.val ≤ 90) then Fin.ofNat (c.val + 32)
      else c
    c1 :: canonLoop (decide (c1 = 45)) s

/-- `textproto.CanonicalMIMEHeaderKey`: a key with a byte that is not a token
byte is returned unchanged. -/
def CanonicalMIMEHeaderKey (s : GoString) : GoString :=
  if s.all validHeaderFieldByte then canonLoop true s else s

/-- `http.Header`, a `map[string][]string`. -/
abbrev Header := List (GoString × List GoString)

/-- `Header.Add`: appends `value` to the values of the canonical form of `key`. -/
def Header.Add (h : Header) (key value : GoString) : Header :=
  let k := CanonicalMIMEHeaderKey key
  match h.lookup k with
  | some vs => h.map fun kv => if kv.1 = k then (k, vs ++ [value]) else kv
  | none => h ++ [(k, [value])]

/-- `Header.Get`: the first value of the canonical form of `key`, or `""`. -/
def Header.Get (h : Header) (key : GoString) : GoString :=
  match h.lookup (CanonicalMIMEHeaderKey key) with
  | some (v :: _) => v
  | _ => []

/-- An `*http.Request` made by `http.NewRequest(method, url, nil)`: the method,
the URL text it was made from, and the header. -/
structure Request where
  Method : GoString
  URL : GoString
  Header : Header
deriving DecidableEq, Repr

/-- A value that `encoding/json` decodes into an `interface{}`. -/
inductive JSONValue where
  | null
  | bool (b : Bool)
  | number (f : Float64)
  | string (s : GoString)
  | array (xs : List JSONValue)
  | object (kvs : List (GoString × JSONValue))

/-- A `map[string]interface{}`; `none` is the `nil` map. -/
abbrev JSONMap := Option (List (GoString × JSONValue))

/-- The index expression `json[key]`: `none` is the `nil` interface that a missing key
(or a `nil` map) gives. -/
def JSONMap.index (json : JSONMap) (key : GoString) : Option JSONValue :=
  match json with
  | none => none
  | some kvs => kvs.lookup key

/-- The collaborators of the client that are not in `gitea.go`: the check that
`http.NewRequest` makes of the method and the URL (`none` when it accepts them),
and `QueryHTTP`, which sends a request and returns the decoded JSON object or
an error, as the Go pair `(map[string]interface{}, error)`. -/
structure Net where
  NewRequestErr : GoString → GoString → Option GoError
  QueryHTTP : Request → JSONMap × Option GoError

/-- `GiteaCredentials.query` (gitea.go:23). -/
def GiteaCredentials.query (net : Net) (creds : GiteaCredentials) (method url : GoString) :
    JSONMap × Option GoError :=
  match net.NewRequestErr method url with
  | some err => (none, some err)
  | none =>
    let req : Request := { Method := method, URL := url, Header := [] }
    let req := { req with Header := req.Header.Add (lit "TOKEN") creds.PersonalToken }
    net.QueryHTTP req

/-! ## Todo and the issue client -/

/-- Modelled from the spec: the type `Todo`, declared in another file of the
repository. The spec gives it a title and an optional remote ID; `gitea.go`
reads `Title` and reads and writes `ID`, a `*string` (`none` is `nil`). `rest`
stands for all its other fields. -/
structure Todo (Rest : Type) where
  ID : Option GoString
  Title : GoString
  rest : Rest
deriving DecidableEq, Repr

/-- `GiteaCredentials.getIssue` (gitea.go:33). The arguments of `query` are
evaluated first: `*todo.ID` panics on a `nil` pointer and `[1:]` on an empty
string. -/
def GiteaCredentials.getIssue {Rest : Type} (net : Net) (creds : GiteaCredentials)
    (repo : GoString) (todo : Todo Rest) : Outcome (JSONMap × Option GoError) :=
  match todo.ID with
  | none => .panic
  | some id =>
    if id.length < 1 then .panic
    else
      let (json, err) := creds.query net (lit "GET")
        (lit "http://" ++ creds.Host ++ lit "/api/v1/repos/" ++ QueryEscape repo ++
          lit "/issues/" ++ id.drop 1)
      match err with
      | some err => .ret (none, some err)
      | none => .ret (json, none)

/-- `GiteaCredentials.postIssue` (gitea.go:45). The type assertion
`json["iid"].(float64)` panics unless the value is a `float64`. -/
def GiteaCredentials.postIssue {Rest : Type} (P : Platform) (net : Net) (creds : GiteaCredentials)
    (repo : GoString) (todo : Todo Rest) (body : GoString) : Outcome (Todo Rest × Option GoError) :=
  let params : Values := []
  let params := params.Add (lit "title") todo.Title
  let params := params.Add (lit "description") body
  let (json, err) := creds.query net (lit "POST")
    (lit "https://" ++ creds.Host ++ lit "/api/v1/repos/" ++ QueryEscape repo ++
      lit "/issues?" ++ params.Encode)
  match err with
  | some err => .ret (todo, some err)
  | none =>
    match json.index (lit "iid") with
    | some (.number f) =>
      let id := lit "#" ++ Itoa (P.int f)
      .ret ({ todo with ID := some id }, err)
    | _ => .panic

/-- `GiteaCredentials.getHost` (gitea.go:63). -/
def GiteaCredentials.getHost (creds : GiteaCredentials) : GoString :=
  creds.Host

/-- Modelled from the spec: the interface `IssueAPI`, declared in another file of
the repository, with the methods `getIssue`, `postIssue` and `getHost`. A value
is a `GiteaCredentials` or a value of another implementing type, of which the
host that its `getHost` returns is kept. -/
inductive IssueAPI where
  | gitea (c : GiteaCredentials)
  | other (host : GoString)
deriving DecidableEq, Repr

/-- The method `getHost` of an `IssueAPI` value. -/
def IssueAPI.getHost : IssueAPI → GoString
  | .gitea c => c.getHost
  | .other host => host

/-! ## Config files -/

/-- A section of a file read by `go-ini`, the reader of key and value sections
that the source takes as given: its name, and the keys that the section holds
itself, each with the text that the method `String()` of the key returns. -/
structure Section where
  Name : GoString
  keys : List (GoString × GoString)
deriving DecidableEq, Repr

/-- A file that `ini.Load` loaded. The library creates the default section, of
the name `DEFAULT`, before it reads anything, so the list of sections starts
with it. -/
structure IniFile where
  Default : Section
  Others : List Section
deriving DecidableEq, Repr

/-- `cfg.Sections()`. -/
def IniFile.Sections (cfg : IniFile) : List Section :=
  cfg.Default :: cfg.Others

/-- The byte `'.'`, the delimiter of child sections in `go-ini`. -/
def dot : Byte := 46

/-- The names that `GetKey` of `go-ini` tries as parents of the section named
`sname`, nearest first: `sname` cut at its last `'.'`, then at the `'.'` before
that one, and so on (`sname = sname[:strings.LastIndex(sname, ".")]`). -/
def parentNames (sname : GoString) : List GoString :=
  (((List.range sname.length).filter fun i => decide (sname.get? i = some dot)).reverse).map
    fun i => sname.take i

/-- `File.GetSection` of `go-ini`: the section of the name `name`, the empty name
standing for `DEFAULT`; `none` when the file has no such section. -/
def IniFile.GetSection (cfg : IniFile) (name : GoString) : Option Section :=
  let name := if name.length = 0 then lit "DEFAULT" else name
  cfg.Sections.find? fun s => decide (s.Name = name)

/-- `Section.GetKey` of `go-ini`: the key of the section itself; when the section
has none of that name, the key that `GetKey` finds for the nearest parent name
that is a section of the file, which looks in that section and then in the
parents further up; `none` when none of them has the key. -/
def Section.GetKey (cfg : IniFile) (s : Section) (name : GoString) : Option GoString :=
  (s :: (parentNames s.Name).filterMap cfg.GetSection).findSome? fun sec => sec.keys.lookup name

/-- `section.Key(name).String()` for a section of the file `cfg`: the text of the
key that `GetKey` finds, `""` when it finds none (`Key` then makes an empty key
in the section, which changes no later answer: a lookup that met it would have
found nothing further up). -/
def Section.Key (cfg : IniFile) (s : Section) (name : GoString) : GoString :=
  (s.GetKey cfg name).getD []

/-- `*user.User`, of which the home directory is read. -/
structure User where
  HomeDir : GoString
deriving DecidableEq, Repr

/-- The process environment and the filesystem, as `gitea.go` reads them:
`os.Getenv` (`""` for an unset variable), `user.Current`, whether `os.Stat`
returns a `nil` error for a path, `ini.Load` (`none` when it returns an
error), and `path.Join` of two elements. -/
structure World where
  Getenv : GoString → GoString
  Current : Except GoError User
  Stat : GoString → Bool
  Load : GoString → Option IniFile
  Join : GoString → GoString → GoString

/-- `GiteaCredentialsFromFile` (gitea.go:68). -/
def GiteaCredentialsFromFile (w : World) (filepath : GoString) : List GiteaCredentials :=
  let credentials : List GiteaCredentials := []
  match w.Load filepath with
  | none => credentials
  | some cfg =>
    (cfg.Sections.drop 1).foldl
      (fun credentials sect =>
        credentials ++
          [{ Host := sect.Name, PersonalToken := sect.Key cfg (lit "personal_token") }])
      credentials

/-- Loop of gitea.go:119 over the entries of `GITLAB_PERSONAL_TOKEN`: an entry
that does not parse writes its error and a newline to `os.Stderr` and the loop
goes on. -/
def envLoop : List GoString → List IssueAPI → List GoString → List IssueAPI × List GoString
  | [], creds, stderr => (creds, stderr)
  | credential :: rest, creds, stderr =>
    match GiteaCredentialsFromToken credential with
    | (_, some err) => envLoop rest creds (stderr ++ [err.msg ++ [10]])
    | (parsedCredentials, none) => envLoop rest (creds ++ [.gitea parsedCredentials]) stderr

/-- Loops of gitea.go:133, 143 and 151: every credential of the file is appended. -/
def appendFile (w : World) (creds : List IssueAPI) (filePath : GoString) : List IssueAPI :=
  (GiteaCredentialsFromFile w filePath).foldl (fun creds cred => creds ++ [.gitea cred]) creds

/-- `getGiteaCredentials` (gitea.go:108). -/
def getGiteaCredentials (w : World) (creds : List IssueAPI) : Run (List IssueAPI) :=
  let tokenEnvar := w.Getenv (lit "GITLAB_PERSONAL_TOKEN")
  let xdgEnvar := w.Getenv (lit "XDG_CONFIG_HOME")
  match w.Current with
  | .error err => { stderr := [err.msg ++ [10]], outcome := .exit 1 }
  | .ok usr =>
    let (creds, stderr) :=
      if tokenEnvar.length ≠ 0 then envLoop (Split tokenEnvar comma) creds [] else (creds, [])
    -- custom XDG_CONFIG_HOME
    let creds :=
      if xdgEnvar.length ≠ 0 then
        let filePath := w.Join xdgEnvar (lit "snitch/gitlab.ini")
        if w.Stat filePath then appendFile w creds filePath else creds
      else creds
    -- default XDG_CONFIG_HOME
    let creds :=
      if xdgEnvar.length = 0 then
        let filePath := w.Join usr.HomeDir (lit ".config/snitch/gitlab.ini")
        if w.Stat filePath then appendFile w creds filePath else creds
      else creds
    let filePath := w.Join usr.HomeDir (lit ".snitch/gitlab.ini")
    let creds := if w.Stat filePath then appendFile w creds filePath else creds
    { stderr := stderr, outcome := .ret creds }

/-! ## Specification-side definitions -/

/-- Specification side, from the spec's words for the environment source: every
comma-separated entry of the variable is parsed, and the entries that parse give
one record each, in the order of the entries. -/
def specEnvRecords (tokenEnvar : GoString) : List IssueAPI :=
  (Split tokenEnvar comma).filterMap fun entry =>
    match GiteaCredentialsFromToken entry with
    | (c, none) => some (IssueAPI.gitea c)
    | (_, some _) => none

/-- Specification side, from the spec's words for a config file: one record for
every section after the first one, the host being the name of the section and
the token the value of its key `personal_token`, empty when the key is absent. -/
def specSectionRecords (sections : List Section) : List GiteaCredentials :=
  sections.tail.map fun s =>
    { Host := s.Name
      PersonalToken :=
        match s.keys.lookup (lit "personal_token") with
        | some v => v
        | none => [] }

/-- The records of the config file at `filePath`, as values of the interface. -/
def fileRecords (w : World) (filePath : GoString) : List IssueAPI :=
  (GiteaCredentialsFromFile w filePath).map IssueAPI.gitea

/-- The world `w` with the variable `GITLAB_PERSONAL_TOKEN` unset. -/
def World.withoutToken (w : World) : World :=
  { w with Getenv := fun k => if k = lit "GITLAB_PERSONAL_TOKEN" then [] else w.Getenv k }

/-- The URL that `postIssue` passes to `query` (gitea.go:52). -/
def postIssueURL (creds : GiteaCredentials) (repo title body : GoString) : GoString :=
  lit "https://" ++ creds.Host ++ lit "/api/v1/repos/" ++ QueryEscape repo ++ lit "/issues?" ++
    Values.Encode (Values.Add (Values.Add [] (lit "title") title) (lit "description") body)

/-- The request that `query` hands to `QueryHTTP` (gitea.go:24-30). -/
def queryRequest (creds : GiteaCredentials) (method url : GoString) : Request :=
  { Method := method, URL := url, Header := Header.Add [] (lit "TOKEN") creds.PersonalToken }

/-! ## Example worlds -/

/-- `path.Join` of two elements that are in clean form already, the first not
empty: the two joined by `/`. The example worlds use it on such elements. -/
def joinSlash (a b : GoString) : GoString :=
  a ++ lit "/" ++ b

/-- Three config files: one under `/x`, the value of `XDG_CONFIG_HOME` in the
examples, and two under the home directory `/home/u`. -/
def exampleLoad (filepath : GoString) : Option IniFile :=
  if filepath = lit "/x/snitch/gitlab.ini" then
    some { Default := ⟨lit "DEFAULT", []⟩
           Others := [⟨lit "xdg.example", [(lit "personal_token", lit "tx")]⟩] }
  else if filepath = lit "/home/u/.config/snitch/gitlab.ini" then
    some { Default := ⟨lit "DEFAULT", []⟩
           Others := [⟨lit "conf.example", [(lit "personal_token", lit "tc")]⟩] }
  else if filepath = lit "/home/u/.snitch/gitlab.ini" then
    some { Default := ⟨lit "DEFAULT", []⟩
           Others := [⟨lit "b", [(lit "personal_token", lit "filetok")]⟩,
                      ⟨lit "nokey.example", [(lit "user", lit "me")]⟩] }
  else none

/-- An example world: the user's home is `/home/u`, the two variables have the
values `token` and `xdg`, and `present` tells the files that exist. -/
def exampleWorld (token xdg : GoString) (present : List GoString) : World where
  Getenv := fun k =>
    if k = lit "GITLAB_PERSONAL_TOKEN" then token
    else if k = lit "XDG_CONFIG_HOME" then xdg
    else []
  Current := .ok ⟨lit "/home/u"⟩
  Stat := fun filepath => decide (filepath ∈ present)
  Load := fun filepath => if filepath ∈ present then exampleLoad filepath else none
  Join := joinSlash

/-- A config file with a section `gitlab`, which has the key `personal_token`, and
a section `gitlab.example`, which has not. -/
def inheritFile : IniFile where
  Default := ⟨lit "DEFAULT", []⟩
  Others := [⟨lit "gitlab", [(lit "personal_token", lit "P")]⟩,
    ⟨lit "gitlab.example", [(lit "user", lit "me")]⟩]

/-- A world whose only file, `/home/u/.snitch/gitlab.ini`, is `inheritFile`. -/
def inheritWorld : World where
  Getenv := fun _ => []
  Current := .ok ⟨lit "/home/u"⟩
  Stat := fun filepath => decide (filepath = lit "/home/u/.snitch/gitlab.ini")
  Load := fun filepath =>
    if filepath = lit "/home/u/.snitch/gitlab.ini" then some inheritFile else none
  Join := joinSlash

/-- A mocked transport: `http.NewRequest` accepts every method and URL, and
`QueryHTTP` answers every request with `response`. -/
def mockNet (response : JSONMap × Option GoError) : Net where
  NewRequestErr := fun _ _ => none
  QueryHTTP := fun _ => response

/-- A `Todo` with the title `fix bug` and no issue yet; a number stands for its
other fields. -/
def exampleTodo : Todo Nat where
  ID := none
  Title := lit "fix bug"
  rest := 7

/-- The `float64` of value `42`. -/
def float42 : Float64 := ⟨0x4045000000000000⟩

/-- The `float64` of value `2^63 = 9223372036854775808`. -/
def float2p63 : Float64 := ⟨0x43E0000000000000⟩

/-- The URL that `getIssue` passes to `query` for the issue ID `id` (gitea.go:36). -/
def getIssueURL (creds : GiteaCredentials) (repo id : GoString) : GoString :=
  lit "http://" ++ creds.Host ++ lit "/api/v1/repos/" ++ QueryEscape repo ++ lit "/issues/" ++
    id.drop 1

/-- What `getIssue` returns from the pair that `query` gave it (gitea.go:38-42). -/
def getIssueResult (r : JSONMap × Option GoError) : JSONMap × Option GoError :=
  match r.2 with
  | some err => (none, some err)
  | none => (r.1, none)

/-- What `postIssue` does with the pair that `query` gave it (gitea.go:53-60). -/
def postIssueResult {Rest : Type} (P : Platform) (todo : Todo Rest)
    (r : JSONMap × Option GoError) : Outcome (Todo Rest × Option GoError) :=
  match r.2 with
  | some err => .ret (todo, some err)
  | none =>
    match r.1.index (lit "iid") with
    | some (.number f) => .ret ({ todo with ID := some (lit "#" ++ Itoa (P.int f)) }, none)
    | _ => .panic

/-- A transport that answers every request with what it received: the method,
the URL and the value that `Header.Get("TOKEN")` reads. -/
def echoNet : Net where
  NewRequestErr := fun _ _ => none
  QueryHTTP := fun req =>
    (some [(lit "method", .string req.Method), (lit "url", .string req.URL),
      (lit "token", .string (req.Header.Get (lit "TOKEN")))], none)

/-- A transport that answers `response` to the request `expected` and fails on
every other request. -/
def expectNet (expected : Request) (response : JSONMap) : Net where
  NewRequestErr := fun _ _ => none
  QueryHTTP := fun req =>
    if req = expected then (response, none) else (none, some ⟨lit "unexpected request"⟩)

/-! ## The path that `net/http` sends -/

theorem splitAux_append (sep : Byte) (cur a rest : GoString) (h : sep ∉ a) :
    splitAux sep cur (a ++ rest) = splitAux sep (cur ++ a) rest := by
  induction a generalizing cur with
  | nil => simp
  | cons b a ih =>
    have hb : b ≠ sep := fun e => h (by simp [e])
    have ha : sep ∉ a := fun e => h (by simp [e])
    simp [splitAux, hb, ih _ ha]

theorem length_splitAux (sep : Byte) (cur s : GoString) :
    (splitAux sep cur s).length = s.count sep + 1 := by
  induction s generalizing cur with
  | nil => simp [splitAux]
  | cons b s ih =>
    by_cases hb : b = sep
    · simp [splitAux, hb, ih]
    · simp [splitAux, hb, ih, List.count_cons]


theorem lit_colon : lit ":" = [colon] := by decide

theorem Split_of_not_mem (sep : Byte) (s : GoString) (h : sep ∉ s) : Split s sep = [s] := by
  have := splitAux_append sep [] s [] h
  simpa [Split, splitAux] using this

theorem Split_of_one_sep (sep : Byte) (a b : GoString) (ha : sep ∉ a) (hb : sep ∉ b) :
    Split (a ++ sep :: b) sep = [a, b] := by
  have h1 := splitAux_append sep [] a (sep :: b) ha
  have h2 := Split_of_not_mem sep b hb
  simp only [Split] at h2 ⊢
  rw [h1]
  simp [splitAux, h2]

theorem length_Split (sep : Byte) (s : GoString) : (Split s sep).length = s.count sep + 1 :=
  length_splitAux sep [] s

/-! ## The credential parser -/

/-- C1: for every raw string `before ++ ":" ++ after` with no `':'` in `before` or in
`after`, `GiteaCredentialsFromToken` returns a `nil` error and the record with
`Host = before` and `PersonalToken = after`. -/
theorem C1_one_colon_host_token (before after : GoString)
    (hb : colon ∉ before) (ha : colon ∉ after) :
    GiteaCredentialsFromToken (before ++ lit ":" ++ after) =
      ({ Host := before, PersonalToken := after }, none) := by
  have h : Split (before ++ lit ":" ++ after) colon = [before, after] := by
    rw [lit_colon, List.append_assoc]
    exact Split_of_one_sep colon before after hb ha
  unfold GiteaCredentialsFromToken
  rw [h]

/-- Witness of C1 at the raw string `"b:c"`. -/
theorem C1_one_colon_host_token_witness :
    (colon ∉ lit "b" ∧ colon ∉ lit "c") ∧
      GiteaCredentialsFromToken (lit "b" ++ lit ":" ++ lit "c") =
        ({ Host := lit "b", PersonalToken := lit "c" }, none) :=
  ⟨by decide, C1_one_colon_host_token (lit "b") (lit "c") (by decide) (by decide)⟩

/-- C2: for every raw string without `':'`, the empty string included,
`GiteaCredentialsFromToken` returns a `nil` error and the record with
`Host = "gitlab.com"` and `PersonalToken` the whole raw string. -/
theorem C2_no_colon_default_host (raw : GoString) (h : colon ∉ raw) :
    GiteaCredentialsFromToken raw =
      ({ Host := lit "gitlab.com", PersonalToken := raw }, none) := by
  simp [GiteaCredentialsFromToken, Split_of_not_mem colon raw h]

/-- Witness of C2 at the empty raw string. -/
theorem C2_no_colon_default_host_witness :
    colon ∉ ([] : GoString) ∧
      GiteaCredentialsFromToken [] = ({ Host := lit "gitlab.com", PersonalToken := [] }, none) :=
  ⟨by decide, C2_no_colon_default_host [] (by decide)⟩

/-- C3: for every raw string with two or more `':'`, `GiteaCredentialsFromToken`
returns a non-`nil` error whose message is the fixed text followed by the whole
raw string, and with it the zero record (empty host and token), not a parsed one. -/
theorem C3_many_colons_error (raw : GoString) (h : 2 ≤ raw.count colon) :
    GiteaCredentialsFromToken raw =
      ({ Host := [], PersonalToken := [] },
        some ⟨lit "Couldn't parse GitLab credentials from ENV: " ++ raw⟩) := by
  have hl := length_Split colon raw
  unfold GiteaCredentialsFromToken
  generalize Split raw colon = parts at hl
  match parts, hl with
  | [], hl => simp
  | [_], hl => simp at hl; omega
  | [_, _], hl => simp at hl; omega
  | _ :: _ :: _ :: _, _ => simp

/-- Witness of C3 at the raw string `"a:b:c"`. -/
theorem C3_many_colons_error_witness :
    2 ≤ (lit "a:b:c").count colon ∧
      GiteaCredentialsFromToken (lit "a:b:c") =
        ({ Host := [], PersonalToken := [] },
          some ⟨lit "Couldn't parse GitLab credentials from ENV: " ++ lit "a:b:c"⟩) :=
  ⟨by decide, C3_many_colons_error (lit "a:b:c") (by decide)⟩

/-! ## The credential resolver -/

theorem envLoop_fst (entries : List GoString) (creds : List IssueAPI) (stderr : List GoString) :
    (envLoop entries creds stderr).1 =
      creds ++ entries.filterMap fun entry =>
        match GiteaCredentialsFromToken entry with
        | (c, none) => some (IssueAPI.gitea c)
        | (_, some _) => none := by
  induction entries generalizing creds stderr with
  | nil => simp [envLoop]
  | cons e es ih =>
    unfold envLoop
    rcases h : GiteaCredentialsFromToken e with ⟨c, _ | err⟩
    · simp [ih, List.filterMap_cons, h]
    · simp [ih, List.filterMap_cons, h]

theorem envLoop_Split_fst (tokenEnvar : GoString) (creds : List IssueAPI) :
    (envLoop (Split tokenEnvar comma) creds []).1 = creds ++ specEnvRecords tokenEnvar :=
  envLoop_fst _ _ _

theorem foldl_append_singleton {α β : Type} (f : α → β) (xs : List α) (init : List β) :
    xs.foldl (fun acc x => acc ++ [f x]) init = init ++ xs.map f := by
  induction xs generalizing init with
  | nil => simp
  | cons x xs ih => simp [ih]

theorem appendFile_eq (w : World) (creds : List IssueAPI) (filePath : GoString) :
    appendFile w creds filePath = creds ++ fileRecords w filePath := by
  unfold appendFile fileRecords
  exact foldl_append_singleton IssueAPI.gitea _ _

theorem GiteaCredentialsFromFile_some (w : World) (filepath : GoString) (cfg : IniFile)
    (h : w.Load filepath = some cfg) :
    GiteaCredentialsFromFile w filepath =
      (cfg.Sections.drop 1).map fun s =>
        { Host := s.Name, PersonalToken := s.Key cfg (lit "personal_token") } := by
  unfold GiteaCredentialsFromFile
  rw [h]
  simp only
  rw [foldl_append_singleton
    (fun s : Section => ({ Host := s.Name, PersonalToken := s.Key cfg (lit "personal_token") } :
      GiteaCredentials))]
  simp only [List.nil_append]

theorem parentNames_of_no_dot (sname : GoString) (h : dot ∉ sname) : parentNames sname = [] := by
  unfold parentNames
  have hf : (List.range sname.length).filter (fun i => decide (sname.get? i = some dot)) = [] := by
    rw [List.filter_eq_nil_iff]
    intro i _ hi
    simp only [decide_eq_true_eq] at hi
    exact h (List.get?_mem hi)
  rw [hf]
  rfl

theorem Section_Key_eq (cfg : IniFile) (s : Section) (name : GoString) :
    s.Key cfg name =
      match s.keys.lookup name with
      | some v => v
      | none =>
        match ((parentNames s.Name).filterMap cfg.GetSection).findSome?
          (fun sec => sec.keys.lookup name) with
        | some v => v
        | none => [] := by
  unfold Section.Key Section.GetKey
  rw [List.findSome?_cons]
  cases s.keys.lookup name with
  | some v => rfl
  | none =>
    simp only
    cases ((parentNames s.Name).filterMap cfg.GetSection).findSome?
      (fun sec => sec.keys.lookup name) <;> rfl

/-- The list that the resolver returns, source by source. -/
theorem getGiteaCredentials_ret (w : World) (usr : User) (hu : w.Current = .ok usr)
    (creds : List IssueAPI) :
    (getGiteaCredentials w creds).outcome =
      .ret (creds ++
        (if w.Getenv (lit "GITLAB_PERSONAL_TOKEN") ≠ [] then
          specEnvRecords (w.Getenv (lit "GITLAB_PERSONAL_TOKEN")) else []) ++
        (if w.Getenv (lit "XDG_CONFIG_HOME") ≠ [] ∧
            w.Stat (w.Join (w.Getenv (lit "XDG_CONFIG_HOME")) (lit "snitch/gitlab.ini")) = true then
          fileRecords w (w.Join (w.Getenv (lit "XDG_CONFIG_HOME")) (lit "snitch/gitlab.ini"))
          else []) ++
        (if w.Getenv (lit "XDG_CONFIG_HOME") = [] ∧
            w.Stat (w.Join usr.HomeDir (lit ".config/snitch/gitlab.ini")) = true then
          fileRecords w (w.Join usr.HomeDir (lit ".config/snitch/gitlab.ini")) else []) ++
        (if w.Stat (w.Join usr.HomeDir (lit ".snitch/gitlab.ini")) = true then
          fileRecords w (w.Join usr.HomeDir (lit ".snitch/gitlab.ini")) else [])) := by
  unfold getGiteaCredentials
  simp only [hu]
  by_cases ht : w.Getenv (lit "GITLAB_PERSONAL_TOKEN") = [] <;>
  by_cases hx : w.Getenv (lit "XDG_CONFIG_HOME") = [] <;>
  by_cases h2 : w.Stat (w.Join (w.Getenv (lit "XDG_CONFIG_HOME")) (lit "snitch/gitlab.ini")) = true <;>
  by_cases h3 : w.Stat (w.Join usr.HomeDir (lit ".config/snitch/gitlab.ini")) = true <;>
  by_cases h4 : w.Stat (w.Join usr.HomeDir (lit ".snitch/gitlab.ini")) = true <;>
  simp [ht, hx, h2, h3, h4, appendFile_eq, envLoop_Split_fst]

theorem fileRecords_withoutToken (w : World) (filePath : GoString) :
    fileRecords w.withoutToken filePath = fileRecords w filePath := rfl

theorem Getenv_withoutToken_token (w : World) :
    w.withoutToken.Getenv (lit "GITLAB_PERSONAL_TOKEN") = [] := by
  simp [World.withoutToken]

theorem Getenv_withoutToken_xdg (w : World) :
    w.withoutToken.Getenv (lit "XDG_CONFIG_HOME") = w.Getenv (lit "XDG_CONFIG_HOME") := by
  have h : lit "XDG_CONFIG_HOME" ≠ lit "GITLAB_PERSONAL_TOKEN" := by decide
  simp [World.withoutToken, h]

/-- C4: for every non-empty value of `GITLAB_PERSONAL_TOKEN`, the list returned is
the initial list, then the records of the entries of the variable that parse,
one for each such comma-separated entry and in the order of the entries (an
entry that does not parse gives none and the entries after it are read all the
same), then what the resolver returns, from the empty list, with the variable
unset: the records of the config files. -/
theorem C4_env_records_in_order (w : World) (usr : User) (hu : w.Current = .ok usr)
    (creds : List IssueAPI) (hne : w.Getenv (lit "GITLAB_PERSONAL_TOKEN") ≠ []) :
    ∃ fromFiles : List IssueAPI,
      (getGiteaCredentials w.withoutToken []).outcome = .ret fromFiles ∧
      (getGiteaCredentials w creds).outcome =
        .ret (creds ++ specEnvRecords (w.Getenv (lit "GITLAB_PERSONAL_TOKEN")) ++ fromFiles) := by
  have hu0 : w.withoutToken.Current = .ok usr := hu
  refine ⟨_, getGiteaCredentials_ret w.withoutToken usr hu0 [], ?_⟩
  rw [getGiteaCredentials_ret w usr hu creds]
  simp only [Getenv_withoutToken_token, Getenv_withoutToken_xdg, fileRecords_withoutToken]
  simp [hne, World.withoutToken]

/-- Witness of C4: with `GITLAB_PERSONAL_TOKEN="a,b:c"`, no config file and the
empty initial list, the resolver returns `gitlab.com` with token `a`, then `b`
with token `c`. -/
theorem C4_env_records_in_order_witness :
    (exampleWorld (lit "a,b:c") [] []).Getenv (lit "GITLAB_PERSONAL_TOKEN") ≠ [] ∧
      (getGiteaCredentials (exampleWorld (lit "a,b:c") [] []) []).outcome =
        .ret [.gitea ⟨lit "gitlab.com", lit "a"⟩, .gitea ⟨lit "b", lit "c"⟩] := by
  refine ⟨by decide, ?_⟩
  obtain ⟨fromFiles, h0, h⟩ :=
    C4_env_records_in_order (exampleWorld (lit "a,b:c") [] []) ⟨lit "/home/u"⟩ rfl []
      (by decide)
  have e0 : (getGiteaCredentials (exampleWorld (lit "a,b:c") [] []).withoutToken []).outcome =
      .ret [] := by decide
  have e1 : specEnvRecords ((exampleWorld (lit "a,b:c") [] []).Getenv
      (lit "GITLAB_PERSONAL_TOKEN")) =
      [.gitea ⟨lit "gitlab.com", lit "a"⟩, .gitea ⟨lit "b", lit "c"⟩] := by decide
  rw [e0] at h0
  injection h0 with h0
  rw [h, e1, ← h0]
  rfl

/-- C5: when an entry of `GITLAB_PERSONAL_TOKEN` parses to a record for the host `h`,
`r` being the first such record, the list returned from the empty initial
list starts with the records of the environment, its first record whose
`getHost()` is `h` is `r`, and that record stands among those of the
environment, before every record of a config file, whatever the files hold. -/
theorem C5_env_before_files (w : World) (usr : User) (hu : w.Current = .ok usr)
    (h : GoString) (r : IssueAPI)
    (hne : w.Getenv (lit "GITLAB_PERSONAL_TOKEN") ≠ [])
    (henv : (specEnvRecords (w.Getenv (lit "GITLAB_PERSONAL_TOKEN"))).find?
      (fun x => decide (x.getHost = h)) = some r) :
    ∃ fromFiles : List IssueAPI,
      (getGiteaCredentials w []).outcome =
        .ret (specEnvRecords (w.Getenv (lit "GITLAB_PERSONAL_TOKEN")) ++ fromFiles) ∧
      (specEnvRecords (w.Getenv (lit "GITLAB_PERSONAL_TOKEN")) ++ fromFiles).find?
        (fun x => decide (x.getHost = h)) = some r ∧
      (specEnvRecords (w.Getenv (lit "GITLAB_PERSONAL_TOKEN")) ++ fromFiles).findIdx
        (fun x => decide (x.getHost = h)) <
          (specEnvRecords (w.Getenv (lit "GITLAB_PERSONAL_TOKEN"))).length := by
  have hret := getGiteaCredentials_ret w usr hu []
  simp only [hne, ne_eq, not_false_eq_true, if_true, List.nil_append, List.append_assoc] at hret
  refine ⟨_, hret, ?_, ?_⟩
  · rw [List.find?_append, henv]
    rfl
  · have hlt : (specEnvRecords (w.Getenv (lit "GITLAB_PERSONAL_TOKEN"))).findIdx
        (fun x => decide (x.getHost = h)) <
          (specEnvRecords (w.Getenv (lit "GITLAB_PERSONAL_TOKEN"))).length :=
      List.findIdx_lt_length_of_exists
        ⟨r, List.mem_of_find?_eq_some henv,
          List.find?_some (p := fun x : IssueAPI => decide (x.getHost = h)) henv⟩
    rw [List.findIdx_append, if_pos hlt]
    exact hlt

/-- Witness of C5: the variable gives the host `b` the token `c`, the legacy file
gives the same host the token `filetok`; the lookup of `b` finds the record of
the variable. -/
theorem C5_env_before_files_witness :
    ∃ fromFiles : List IssueAPI,
      fromFiles.find? (fun x => decide (x.getHost = lit "b")) =
        some (.gitea ⟨lit "b", lit "filetok"⟩) ∧
      (getGiteaCredentials
          (exampleWorld (lit "a,b:c") [] [lit "/home/u/.snitch/gitlab.ini"]) []).outcome =
        .ret (specEnvRecords (lit "a,b:c") ++ fromFiles) ∧
      (specEnvRecords (lit "a,b:c") ++ fromFiles).find?
        (fun x => decide (x.getHost = lit "b")) = some (.gitea ⟨lit "b", lit "c"⟩) := by
  obtain ⟨fromFiles, h1, h2, _⟩ :=
    C5_env_before_files (exampleWorld (lit "a,b:c") [] [lit "/home/u/.snitch/gitlab.ini"])
      ⟨lit "/home/u"⟩ rfl (lit "b") (.gitea ⟨lit "b", lit "c"⟩) (by decide) (by decide)
  have e : (getGiteaCredentials
      (exampleWorld (lit "a,b:c") [] [lit "/home/u/.snitch/gitlab.ini"]) []).outcome =
      .ret (specEnvRecords (lit "a,b:c") ++
        [.gitea ⟨lit "b", lit "filetok"⟩, .gitea ⟨lit "nokey.example", []⟩]) := by decide
  have hg : (exampleWorld (lit "a,b:c") [] [lit "/home/u/.snitch/gitlab.ini"]).Getenv
      (lit "GITLAB_PERSONAL_TOKEN") = lit "a,b:c" := by decide
  rw [hg] at h1 h2
  rw [e] at h1
  injection h1 with h1
  have hf := List.append_cancel_left h1
  subst hf
  exact ⟨_, by decide, e, h2⟩

/-- C6: a variable counting as set when `os.Getenv` gives a non-empty value, the
list returned from the empty initial list is the concatenation, in this order
and with no record left out, of: the records of the environment variable; the
records of `$XDG_CONFIG_HOME/snitch/gitlab.ini` if `XDG_CONFIG_HOME` is set and
the file exists; the records of `<home>/.config/snitch/gitlab.ini` if and only if
`XDG_CONFIG_HOME` is unset and the file exists; the records of
`<home>/.snitch/gitlab.ini` whenever it exists. From any initial list the same
concatenation follows the initial list. The second and the third source never
both contribute. -/
theorem C6_sources_in_order (w : World) (usr : User) (hu : w.Current = .ok usr) :
    let token := w.Getenv (lit "GITLAB_PERSONAL_TOKEN")
    let xdg := w.Getenv (lit "XDG_CONFIG_HOME")
    let xdgPath := w.Join xdg (lit "snitch/gitlab.ini")
    let defaultPath := w.Join usr.HomeDir (lit ".config/snitch/gitlab.ini")
    let legacyPath := w.Join usr.HomeDir (lit ".snitch/gitlab.ini")
    let fromEnv := if token ≠ [] then specEnvRecords token else []
    let fromXdg := if xdg ≠ [] ∧ w.Stat xdgPath = true then fileRecords w xdgPath else []
    let fromDefault :=
      if xdg = [] ∧ w.Stat defaultPath = true then fileRecords w defaultPath else []
    let fromLegacy := if w.Stat legacyPath = true then fileRecords w legacyPath else []
    (getGiteaCredentials w []).outcome =
        .ret (fromEnv ++ fromXdg ++ fromDefault ++ fromLegacy) ∧
      (∀ creds : List IssueAPI, (getGiteaCredentials w creds).outcome =
        .ret (creds ++ fromEnv ++ fromXdg ++ fromDefault ++ fromLegacy)) ∧
      (fromXdg = [] ∨ fromDefault = []) := by
  intro token xdg xdgPath defaultPath legacyPath fromEnv fromXdg fromDefault fromLegacy
  refine ⟨?_, getGiteaCredentials_ret w usr hu, ?_⟩
  · have h := getGiteaCredentials_ret w usr hu []
    rw [List.nil_append] at h
    exact h
  · by_cases hx : xdg = []
    · left
      simp [fromXdg, hx]
    · right
      simp [fromDefault, hx]

/-- Witness of C6: all three files exist and `XDG_CONFIG_HOME=/x`; the file under
`<home>/.config` gives nothing, the records of the two other files follow those of
the variable, the host `b` twice. -/
theorem C6_sources_in_order_witness :
    (getGiteaCredentials
        (exampleWorld (lit "a,b:c") (lit "/x")
          [lit "/x/snitch/gitlab.ini", lit "/home/u/.config/snitch/gitlab.ini",
            lit "/home/u/.snitch/gitlab.ini"])
        [.other (lit "github.com")]).outcome =
      .ret [.other (lit "github.com"), .gitea ⟨lit "gitlab.com", lit "a"⟩,
        .gitea ⟨lit "b", lit "c"⟩, .gitea ⟨lit "xdg.example", lit "tx"⟩,
        .gitea ⟨lit "b", lit "filetok"⟩, .gitea ⟨lit "nokey.example", []⟩] := by
  have h := (C6_sources_in_order
    (exampleWorld (lit "a,b:c") (lit "/x")
      [lit "/x/snitch/gitlab.ini", lit "/home/u/.config/snitch/gitlab.ini",
        lit "/home/u/.snitch/gitlab.ini"])
    ⟨lit "/home/u"⟩ rfl).2.1 [.other (lit "github.com")]
  rw [h]
  decide

/-- C7: with `XDG_CONFIG_HOME` set (a non-empty value), no file at
`$XDG_CONFIG_HOME/snitch/gitlab.ini`, a file at `<home>/.snitch/gitlab.ini`, no
environment credentials and the empty initial list, the resolver returns, with
nothing written to the error stream, exactly the records of the legacy file:
one for each of its sections after the first, in the order of the file. A file
at `<home>/.config/snitch/gitlab.ini` changes nothing. -/
theorem C7_legacy_only (w : World) (usr : User) (hu : w.Current = .ok usr)
    (htoken : w.Getenv (lit "GITLAB_PERSONAL_TOKEN") = [])
    (hxdg : w.Getenv (lit "XDG_CONFIG_HOME") ≠ [])
    (habsent : w.Stat (w.Join (w.Getenv (lit "XDG_CONFIG_HOME")) (lit "snitch/gitlab.ini")) = false)
    (hlegacy : w.Stat (w.Join usr.HomeDir (lit ".snitch/gitlab.ini")) = true) :
    getGiteaCredentials w [] =
        { stderr := []
          outcome := .ret (fileRecords w (w.Join usr.HomeDir (lit ".snitch/gitlab.ini"))) } ∧
      ∀ cfg, w.Load (w.Join usr.HomeDir (lit ".snitch/gitlab.ini")) = some cfg →
        fileRecords w (w.Join usr.HomeDir (lit ".snitch/gitlab.ini")) =
          (cfg.Sections.drop 1).map fun s =>
            IssueAPI.gitea ⟨s.Name, s.Key cfg (lit "personal_token")⟩ := by
  constructor
  · unfold getGiteaCredentials
    simp [hu, htoken, hxdg, habsent, hlegacy, appendFile_eq]
  · intro cfg hcfg
    unfold fileRecords
    rw [GiteaCredentialsFromFile_some w _ cfg hcfg, List.map_map]
    rfl

/-- Witness of C7: `XDG_CONFIG_HOME=/x` with no file under `/x`, files at
`<home>/.config/snitch/gitlab.ini` and at `<home>/.snitch/gitlab.ini`: the two
records of the legacy file are returned and the other file gives nothing. -/
theorem C7_legacy_only_witness :
    getGiteaCredentials
        (exampleWorld [] (lit "/x")
          [lit "/home/u/.config/snitch/gitlab.ini", lit "/home/u/.snitch/gitlab.ini"]) [] =
      { stderr := []
        outcome := .ret [.gitea ⟨lit "b", lit "filetok"⟩, .gitea ⟨lit "nokey.example", []⟩] } := by
  have h := (C7_legacy_only
    (exampleWorld [] (lit "/x")
      [lit "/home/u/.config/snitch/gitlab.ini", lit "/home/u/.snitch/gitlab.ini"])
    ⟨lit "/home/u"⟩ rfl (by decide) (by decide) (by decide) (by decide)).1
  rw [h]
  decide

/-- C8, as amended: when the file loads into the sections `s0, s1, ..., sn`,
`GiteaCredentialsFromFile` returns `n` records, in the order of the sections and
with none for `s0`, the `i`-th with the name of `s_i` as host and as token the
value of the key `personal_token` of `s_i`; when `s_i` has no such key, the value
of the key in the nearest section that has it among those named by the name of
`s_i` cut at one of its `'.'` (the library lets a section inherit from its parents);
and the empty string when none of them has it, as for every section without the
key whose name has no `'.'`. When the file does not load, the list is empty. -/
theorem C8_records_of_sections (w : World) (filepath : GoString) :
    (∀ (cfg : IniFile) (s0 : Section) (rest : List Section),
      w.Load filepath = some cfg → cfg.Sections = s0 :: rest →
        GiteaCredentialsFromFile w filepath =
            rest.map (fun s =>
              { Host := s.Name
                PersonalToken :=
                  match s.keys.lookup (lit "personal_token") with
                  | some v => v
                  | none =>
                    match ((parentNames s.Name).filterMap cfg.GetSection).findSome?
                      (fun sec => sec.keys.lookup (lit "personal_token")) with
                    | some v => v
                    | none => [] }) ∧
          (GiteaCredentialsFromFile w filepath).length = rest.length ∧
          (∀ s ∈ rest, dot ∉ s.Name → s.keys.lookup (lit "personal_token") = none →
            ({ Host := s.Name, PersonalToken := [] } : GiteaCredentials) ∈
              GiteaCredentialsFromFile w filepath) ∧
          ((∀ s ∈ rest, dot ∉ s.Name) →
            GiteaCredentialsFromFile w filepath = specSectionRecords cfg.Sections)) ∧
      (w.Load filepath = none → GiteaCredentialsFromFile w filepath = []) := by
  constructor
  · intro cfg s0 rest hload hsec
    have h := GiteaCredentialsFromFile_some w filepath cfg hload
    rw [hsec] at h
    simp only [List.drop_succ_cons, List.drop_zero] at h
    refine ⟨?_, by rw [h, List.length_map], ?_, ?_⟩
    · rw [h]
      apply List.map_congr_left
      intro s _
      rw [Section_Key_eq]
    · intro s hs hdot hnone
      rw [h, List.mem_map]
      refine ⟨s, hs, ?_⟩
      rw [Section_Key_eq, parentNames_of_no_dot s.Name hdot, hnone]
      rfl
    · intro hdot
      rw [h, hsec]
      unfold specSectionRecords
      simp only [List.tail_cons]
      apply List.map_congr_left
      intro s hs
      rw [Section_Key_eq, parentNames_of_no_dot s.Name (hdot s hs)]
      cases s.keys.lookup (lit "personal_token") <;> rfl
  · intro hload
    simp [GiteaCredentialsFromFile, hload]

/-- Witness of C8: the legacy file of the examples, with the sections `DEFAULT`,
`b` and `nokey.example`, gives two records, the second with an empty token: the
file has no section `nokey`. -/
theorem C8_records_of_sections_witness :
    GiteaCredentialsFromFile
        (exampleWorld [] [] [lit "/home/u/.snitch/gitlab.ini"])
        (lit "/home/u/.snitch/gitlab.ini") =
      [⟨lit "b", lit "filetok"⟩, ⟨lit "nokey.example", []⟩] := by
  have h := (C8_records_of_sections
    (exampleWorld [] [] [lit "/home/u/.snitch/gitlab.ini"])
    (lit "/home/u/.snitch/gitlab.ini")).1
    { Default := ⟨lit "DEFAULT", []⟩
      Others := [⟨lit "b", [(lit "personal_token", lit "filetok")]⟩,
                 ⟨lit "nokey.example", [(lit "user", lit "me")]⟩] }
    _ _ (by decide) rfl
  rw [h.1]
  decide

/-- C8 fails as stated on the file `[gitlab] personal_token = P`, `[gitlab.example]
user = me`: the section `gitlab.example` has no key `personal_token`, and its
record has the token `P` of the section `gitlab`, not the empty string; the
resolver returns that record. -/
theorem C8_counterexample_inherited_token :
    inheritFile.Sections =
        [⟨lit "DEFAULT", []⟩, ⟨lit "gitlab", [(lit "personal_token", lit "P")]⟩,
          ⟨lit "gitlab.example", [(lit "user", lit "me")]⟩] ∧
      GiteaCredentialsFromFile inheritWorld (lit "/home/u/.snitch/gitlab.ini") =
        [⟨lit "gitlab", lit "P"⟩, ⟨lit "gitlab.example", lit "P"⟩] ∧
      specSectionRecords inheritFile.Sections =
        [⟨lit "gitlab", lit "P"⟩, ⟨lit "gitlab.example", []⟩] ∧
      (getGiteaCredentials inheritWorld []).outcome =
        .ret [.gitea ⟨lit "gitlab", lit "P"⟩, .gitea ⟨lit "gitlab.example", lit "P"⟩] := by
  refine ⟨by decide, by decide, by decide, by decide⟩

/-! ## The issue client -/

theorem query_of_accepted (net : Net) (creds : GiteaCredentials) (method url : GoString)
    (hnew : net.NewRequestErr method url = none) :
    creds.query net method url = net.QueryHTTP (queryRequest creds method url) := by
  simp [GiteaCredentials.query, hnew, queryRequest]

theorem postIssue_eq {Rest : Type} (P : Platform) (net : Net) (creds : GiteaCredentials)
    (repo : GoString) (todo : Todo Rest) (body : GoString) :
    creds.postIssue P net repo todo body =
      match (creds.query net (lit "POST") (postIssueURL creds repo todo.Title body)).2 with
      | some err => .ret (todo, some err)
      | none =>
        match (creds.query net (lit "POST")
          (postIssueURL creds repo todo.Title body)).1.index (lit "iid") with
        | some (.number f) => .ret ({ todo with ID := some (lit "#" ++ Itoa (P.int f)) }, none)
        | _ => .panic := by
  unfold GiteaCredentials.postIssue postIssueURL
  dsimp only
  generalize creds.query net (lit "POST") _ = q
  rcases q with ⟨json, _ | err⟩ <;> rfl

theorem int_of_toInt? (P : Platform) (f : Float64) (n : Int) (hn : f.toInt? = some n)
    (hlo : -(2 : Int) ^ (P.intBits - 1) ≤ n) (hhi : n < (2 : Int) ^ (P.intBits - 1)) :
    P.int f = n := by
  unfold Float64.toInt? at hn
  split at hn
  · rename_i hfin
    simp only [Bool.and_eq_true] at hfin
    injection hn with hn
    unfold Platform.int
    rw [if_pos ⟨hfin.1, by rw [hn]; exact hlo, by rw [hn]; exact hhi⟩, hn]
  · exact absurd hn (by simp)

theorem int_float2p63_ne (P : Platform) (hbits : P.intBits ≤ 64) :
    P.int float2p63 ≠ 2 ^ 63 := by
  have ht : float2p63.trunc = 2 ^ 63 := by decide
  have hp : (2 : Int) ^ (P.intBits - 1) ≤ 2 ^ 63 :=
    pow_le_pow_right₀ (by norm_num) (by omega)
  unfold Platform.int
  rw [ht]
  rw [if_neg (fun h => absurd (lt_of_lt_of_le h.2.2 hp) (lt_irrefl _))]
  have hpos : 0 < (2 : Nat) ^ P.intBits := Nat.two_pow_pos _
  have hlt := Int.bmod_lt (x := P.floatToIntOther float2p63) hpos
  have hle : (2 : Nat) ^ P.intBits ≤ 2 ^ 64 := Nat.pow_le_pow_right (by norm_num) hbits
  intro heq
  rw [heq] at hlt
  omega

/-- C9, as amended: when the transport succeeds with a JSON object whose `iid` is a
`float64` that holds exactly the integer `n`, and `n` is in the range of `int`
(`-2^63 ≤ n < 2^63` where `int` has 64 bits), `postIssue` returns a `nil` error and
the input `Todo` with `ID` set to `"#"` followed by the decimal text of `n`, the
title and the other fields unchanged. -/
theorem C9_post_sets_id {Rest : Type} (P : Platform) (net : Net) (creds : GiteaCredentials)
    (repo body : GoString) (todo : Todo Rest) (json : JSONMap) (f : Float64) (n : Int)
    (hnew : net.NewRequestErr (lit "POST") (postIssueURL creds repo todo.Title body) = none)
    (hq : net.QueryHTTP (queryRequest creds (lit "POST")
      (postIssueURL creds repo todo.Title body)) = (json, none))
    (hiid : json.index (lit "iid") = some (.number f))
    (hn : f.toInt? = some n)
    (hlo : -(2 : Int) ^ (P.intBits - 1) ≤ n) (hhi : n < (2 : Int) ^ (P.intBits - 1)) :
    creds.postIssue P net repo todo body =
      .ret ({ ID := some (lit "#" ++ Itoa n), Title := todo.Title, rest := todo.rest }, none) := by
  rw [postIssue_eq, query_of_accepted net creds _ _ hnew, hq]
  simp only [hiid, int_of_toInt? P f n hn hlo hhi]

/-- Witness of C9: title `fix bug`, body `details`, response `iid = 42` give the
`Todo` with `ID == "#42"`. -/
theorem C9_post_sets_id_witness :
    GiteaCredentials.postIssue amd64 (mockNet (some [(lit "iid", .number float42)], none))
        ⟨lit "gitea.example.com", lit "t0k"⟩ (lit "owner/name") exampleTodo (lit "details") =
      .ret ({ ID := some (lit "#42"), Title := lit "fix bug", rest := 7 }, none) :=
  C9_post_sets_id amd64 (mockNet (some [(lit "iid", .number float42)], none))
    ⟨lit "gitea.example.com", lit "t0k"⟩ (lit "owner/name") (lit "details") exampleTodo
    (some [(lit "iid", .number float42)]) float42 42 rfl rfl rfl (by decide)
    (by decide) (by decide)

/-- C9 fails as stated at `n = 2^63`: the response holds `iid = 9223372036854775808`
exactly, and on a 64-bit platform whose conversion gives the smallest `int` out
of range the new `ID` is `"#-9223372036854775808"`, not `"#9223372036854775808"`.
On no platform with an `int` of at most 64 bits is `int(iid)` equal to `2^63`. -/
theorem C9_counterexample_int_range :
    float2p63.toInt? = some (2 ^ 63) ∧
      GiteaCredentials.postIssue amd64 (mockNet (some [(lit "iid", .number float2p63)], none))
          ⟨lit "gitea.example.com", lit "t0k"⟩ (lit "owner/name") exampleTodo (lit "details") =
        .ret ({ ID := some (lit "#-9223372036854775808"), Title := lit "fix bug", rest := 7 },
          none) ∧
      lit "#" ++ Itoa (2 ^ 63) = lit "#9223372036854775808" ∧
      lit "#-9223372036854775808" ≠ lit "#" ++ Itoa (2 ^ 63) ∧
      ∀ P : Platform, P.intBits ≤ 64 → P.int float2p63 ≠ 2 ^ 63 :=
  ⟨by decide, by decide, by decide, by decide, int_float2p63_ne⟩

/-- C10: when the transport returns an error `e`, `postIssue` returns the input
`Todo` unchanged, its `ID` (`nil` or not), its title and its other fields, with
exactly the error `e`. -/
theorem C10_post_transport_error {Rest : Type} (P : Platform) (net : Net)
    (creds : GiteaCredentials) (repo body : GoString) (todo : Todo Rest) (json : JSONMap)
    (e : GoError)
    (hnew : net.NewRequestErr (lit "POST") (postIssueURL creds repo todo.Title body) = none)
    (hq : net.QueryHTTP (queryRequest creds (lit "POST")
      (postIssueURL creds repo todo.Title body)) = (json, some e)) :
    creds.postIssue P net repo todo body = .ret (todo, some e) := by
  rw [postIssue_eq, query_of_accepted net creds _ _ hnew, hq]

/-- Witness of C10: the transport fails with `connection refused`, also with a
body in its answer; a `Todo` with the `ID` `#7` comes back as it was. -/
theorem C10_post_transport_error_witness :
    GiteaCredentials.postIssue amd64
        (mockNet (some [(lit "iid", .number float42)], some ⟨lit "connection refused"⟩))
        ⟨lit "gitea.example.com", lit "t0k"⟩ (lit "owner/name")
        { exampleTodo with ID := some (lit "#7") } (lit "details") =
      .ret ({ ID := some (lit "#7"), Title := lit "fix bug", rest := 7 },
        some ⟨lit "connection refused"⟩) :=
  C10_post_transport_error amd64
    (mockNet (some [(lit "iid", .number float42)], some ⟨lit "connection refused"⟩))
    ⟨lit "gitea.example.com", lit "t0k"⟩ (lit "owner/name") (lit "details")
    { exampleTodo with ID := some (lit "#7") } (some [(lit "iid", .number float42)])
    ⟨lit "connection refused"⟩ rfl rfl

/-! ## The requests of the issue client -/

theorem canonical_TOKEN : CanonicalMIMEHeaderKey (lit "TOKEN") = lit "Token" := by decide

theorem queryRequest_eq (creds : GiteaCredentials) (method url : GoString) :
    queryRequest creds method url =
      { Method := method, URL := url, Header := [(lit "Token", [creds.PersonalToken])] } := by
  simp [queryRequest, Header.Add, canonical_TOKEN]

theorem Header_Get_TOKEN (token : GoString) :
    Header.Get [(lit "Token", [token])] (lit "TOKEN") = token := by
  simp [Header.Get, canonical_TOKEN, List.lookup]

theorem getIssue_eq {Rest : Type} (net : Net) (creds : GiteaCredentials) (repo : GoString)
    (todo : Todo Rest) (id : GoString) (hid : todo.ID = some id) (hne : id ≠ []) :
    creds.getIssue net repo todo =
      .ret (getIssueResult (creds.query net (lit "GET") (getIssueURL creds repo id))) := by
  have hlen : ¬ id.length < 1 := by
    cases id with
    | nil => exact absurd rfl hne
    | cons b t => simp
  unfold GiteaCredentials.getIssue getIssueURL getIssueResult
  rw [hid]
  dsimp only
  rw [if_neg hlen]
  generalize creds.query net (lit "GET") _ = q
  rcases q with ⟨json, _ | err⟩ <;> rfl

theorem postIssue_eq_result {Rest : Type} (P : Platform) (net : Net) (creds : GiteaCredentials)
    (repo : GoString) (todo : Todo Rest) (body : GoString) :
    creds.postIssue P net repo todo body =
      postIssueResult P todo
        (creds.query net (lit "POST") (postIssueURL creds repo todo.Title body)) := by
  rw [postIssue_eq]
  rfl

/-- C11: for a `Todo` whose ID is `"#" ++ s`, `getIssue` calls `query` with the method
`GET` and the URL `"http://" ++ host ++ "/api/v1/repos/" ++ QueryEscape(repo) ++
"/issues/" ++ s`, which ends in `/issues/` and `s`, and returns what `query` gives;
once `http.NewRequest` accepts them, the request that the transport receives has
this method and URL and one header, whose value is the token, byte for byte,
and which `Header.Get("TOKEN")` reads. -/
theorem C11_get_request {Rest : Type} (net : Net) (creds : GiteaCredentials)
    (repo s : GoString) (todo : Todo Rest) (hid : todo.ID = some (lit "#" ++ s)) :
    let url := lit "http://" ++ creds.Host ++ lit "/api/v1/repos/" ++ QueryEscape repo ++
      lit "/issues/" ++ s
    let req : Request :=
      { Method := lit "GET", URL := url, Header := [(lit "Token", [creds.PersonalToken])] }
    creds.getIssue net repo todo = .ret (getIssueResult (creds.query net (lit "GET") url)) ∧
      (net.NewRequestErr (lit "GET") url = none →
        creds.query net (lit "GET") url = net.QueryHTTP req) ∧
      req.Header.Get (lit "TOKEN") = creds.PersonalToken ∧
      (lit "/issues/" ++ s) <:+ url := by
  intro url req
  refine ⟨?_, ?_, Header_Get_TOKEN _, ?_⟩
  · have h := getIssue_eq net creds repo todo (lit "#" ++ s) hid (by simp [lit, utf8])
    rw [h]
    rfl
  · intro hnew
    rw [query_of_accepted net creds _ _ hnew, queryRequest_eq]
  · exact ⟨lit "http://" ++ creds.Host ++ lit "/api/v1/repos/" ++ QueryEscape repo,
      by simp [url]⟩

/-- Witness of C11: for the ID `#42` the transport receives `GET` on a URL ending
in `/issues/42`, the repo escaped, with the token in the header. -/
theorem C11_get_request_witness :
    GiteaCredentials.getIssue echoNet ⟨lit "gitea.example.com", lit "t0k/+ %"⟩
        (lit "owner/name") { exampleTodo with ID := some (lit "#42") } =
      .ret (some [(lit "method", .string (lit "GET")),
        (lit "url", .string (lit "http://gitea.example.com/api/v1/repos/owner%2Fname/issues/42")),
        (lit "token", .string (lit "t0k/+ %"))], none) := by
  have h := C11_get_request echoNet ⟨lit "gitea.example.com", lit "t0k/+ %"⟩
    (lit "owner/name") (lit "42") { exampleTodo with ID := some (lit "#42") } rfl
  rw [h.1]
  rfl

theorem upperhex_not_escaped (n : Nat) (h : n < 16) : shouldEscape (upperhex n) = false := by
  interval_cases n <;> decide

theorem QueryEscape_bytes (s : GoString) (b : Byte) (hb : b ∈ QueryEscape s) :
    shouldEscape b = false ∨ b = 43 ∨ b = 37 := by
  unfold QueryEscape at hb
  rw [List.mem_flatMap] at hb
  obtain ⟨c, _, hbc⟩ := hb
  have hplus : lit "+" = [43] := by decide
  have hpct : lit "%" = [37] := by decide
  split_ifs at hbc with h1 h2
  · rw [hplus] at hbc
    simp at hbc
    exact Or.inr (Or.inl hbc)
  · rw [hpct] at hbc
    simp only [List.singleton_append, List.mem_cons, List.mem_singleton, List.not_mem_nil,
      or_false] at hbc
    rcases hbc with h | h | h
    · exact Or.inr (Or.inr h)
    · rw [h]
      exact Or.inl (upperhex_not_escaped _ (by omega))
    · rw [h]
      exact Or.inl (upperhex_not_escaped _ (by omega))
  · simp at hbc
    rw [hbc]
    exact Or.inl (by simpa using h2)

theorem not_mem_QueryEscape (s : GoString) (b : Byte) (hesc : shouldEscape b = true)
    (h43 : b ≠ 43) (h37 : b ≠ 37) : b ∉ QueryEscape s := by
  intro hb
  rcases QueryEscape_bytes s b hb with h | h | h
  · rw [h] at hesc
    exact absurd hesc (by simp)
  · exact h43 h
  · exact h37 h

theorem Encode_title_description (title body : GoString) :
    Values.Encode (Values.Add (Values.Add [] (lit "title") title) (lit "description") body) =
      lit "description=" ++ QueryEscape body ++ lit "&" ++ (lit "title=" ++ QueryEscape title) := by
  have hne : lit "description" ≠ lit "title" := by decide
  have hlt : strLt (lit "description") (lit "title") = true := by decide
  have hd : QueryEscape (lit "description") ++ lit "=" = lit "description=" := by decide
  have ht : QueryEscape (lit "title") ++ lit "=" = lit "title=" := by decide
  have hpos : (lit "description=" ++ QueryEscape body).length > 0 := by
    simp [lit, utf8]
  simp only [Values.Add, Values.Encode, hne, hlt, if_true, if_false, List.foldl_cons,
    List.foldl_nil, List.length_nil, gt_iff_lt, lt_self_iff_false, List.nil_append]
  rw [hd, if_pos hpos]
  simp only [List.append_assoc]
  rw [← List.append_assoc (QueryEscape (lit "title")), ht]

theorem postIssueURL_eq (creds : GiteaCredentials) (repo title body : GoString) :
    postIssueURL creds repo title body =
      lit "https://" ++ creds.Host ++ lit "/api/v1/repos/" ++ QueryEscape repo ++ lit "/issues" ++
        lit "?" ++
        (lit "description=" ++ QueryEscape body ++ lit "&" ++ (lit "title=" ++ QueryEscape title)) := by
  have h : lit "/issues?" = lit "/issues" ++ lit "?" := by decide
  unfold postIssueURL
  rw [Encode_title_description, h]
  simp only [List.append_assoc]

/-- C12: `postIssue` calls `query` with the method `POST` and the URL `"https://" ++
host ++ "/api/v1/repos/" ++ QueryEscape(repo) ++ "/issues"`, then `?` and the query
string `description=<body>&title=<title>`, both values escaped by `QueryEscape`
(`Values.Encode` writes the keys in ascending order); once `http.NewRequest`
accepts them the transport receives this request, the token in its header
`TOKEN`. Split at `&` the query string has exactly these two parameters, and
each splits at `=` into its name and its escaped value. -/
theorem C12_post_request {Rest : Type} (P : Platform) (net : Net) (creds : GiteaCredentials)
    (repo body : GoString) (todo : Todo Rest) :
    let description := lit "description=" ++ QueryEscape body
    let title := lit "title=" ++ QueryEscape todo.Title
    let url := lit "https://" ++ creds.Host ++ lit "/api/v1/repos/" ++ QueryEscape repo ++
      lit "/issues" ++ lit "?" ++ (description ++ lit "&" ++ title)
    let req : Request :=
      { Method := lit "POST", URL := url, Header := [(lit "Token", [creds.PersonalToken])] }
    creds.postIssue P net repo todo body =
        postIssueResult P todo (creds.query net (lit "POST") url) ∧
      (net.NewRequestErr (lit "POST") url = none →
        creds.query net (lit "POST") url = net.QueryHTTP req) ∧
      req.Header.Get (lit "TOKEN") = creds.PersonalToken ∧
      Split (description ++ lit "&" ++ title) 38 = [description, title] ∧
      Split description 61 = [lit "description", QueryEscape body] ∧
      Split title 61 = [lit "title", QueryEscape todo.Title] := by
  intro description title url req
  have hamp : lit "&" = [38] := by decide
  have hd : lit "description=" = lit "description" ++ [61] := by decide
  have ht : lit "title=" = lit "title" ++ [61] := by decide
  have namp : ∀ x : GoString, (38 : Byte) ∉ QueryEscape x := fun x =>
    not_mem_QueryEscape x 38 (by decide) (by decide) (by decide)
  have neq : ∀ x : GoString, (61 : Byte) ∉ QueryEscape x := fun x =>
    not_mem_QueryEscape x 61 (by decide) (by decide) (by decide)
  have nd : (38 : Byte) ∉ lit "description=" := by decide
  have nt : (38 : Byte) ∉ lit "title=" := by decide
  refine ⟨?_, ?_, Header_Get_TOKEN _, ?_, ?_, ?_⟩
  · rw [postIssue_eq_result, postIssueURL_eq]
  · intro hnew
    rw [query_of_accepted net creds _ _ hnew, queryRequest_eq]
  · rw [hamp, List.append_assoc]
    exact Split_of_one_sep 38 description title
      (by simp only [description, List.mem_append, not_or]; exact ⟨nd, namp body⟩)
      (by simp only [title, List.mem_append, not_or]; exact ⟨nt, namp todo.Title⟩)
  · simp only [description]
    rw [hd, List.append_assoc]
    exact Split_of_one_sep 61 (lit "description") (QueryEscape body) (by decide) (neq body)
  · simp only [title]
    rw [ht, List.append_assoc]
    exact Split_of_one_sep 61 (lit "title") (QueryEscape todo.Title) (by decide) (neq todo.Title)

set_option maxRecDepth 8000

/-- Witness of C12: a transport that answers only the expected request, `POST` on
`https://gitea.example.com/api/v1/repos/owner%2Fname/issues?description=a%26b%3Dc&title=fix+bug`
with the token in the header, is answered: the issue gets its ID. -/
theorem C12_post_request_witness :
    GiteaCredentials.postIssue amd64
        (expectNet
          { Method := lit "POST"
            URL := lit ("https://gitea.example.com/api/v1/repos/owner%2Fname/issues" ++
              "?description=a%26b%3Dc&title=fix+bug")
            Header := [(lit "Token", [lit "t0k/+ %"])] }
          (some [(lit "iid", .number float42)]))
        ⟨lit "gitea.example.com", lit "t0k/+ %"⟩ (lit "owner/name") exampleTodo (lit "a&b=c") =
      .ret ({ ID := some (lit "#42"), Title := lit "fix bug", rest := 7 }, none) := by
  have h := (C12_post_request amd64
    (expectNet
      { Method := lit "POST"
        URL := lit ("https://gitea.example.com/api/v1/repos/owner%2Fname/issues" ++
          "?description=a%26b%3Dc&title=fix+bug")
        Header := [(lit "Token", [lit "t0k/+ %"])] }
      (some [(lit "iid", .number float42)]))
    ⟨lit "gitea.example.com", lit "t0k/+ %"⟩ (lit "owner/name") (lit "a&b=c") exampleTodo).1
  rw [h]
  decide

/-- C13: for a non-`nil`, non-empty ID and a request that `http.NewRequest` accepts,
`getIssue` returns what the transport returned: the JSON object `j`, as it is,
with a `nil` error when the transport succeeds with `j`; a `nil` map with the
error `e`, as it is, when the transport fails with `e`. -/
theorem C13_get_returns_transport {Rest : Type} (net : Net) (creds : GiteaCredentials)
    (repo id : GoString) (todo : Todo Rest) (hid : todo.ID = some id) (hne : id ≠ [])
    (hnew : net.NewRequestErr (lit "GET") (getIssueURL creds repo id) = none) :
    (∀ j : JSONMap,
      net.QueryHTTP (queryRequest creds (lit "GET") (getIssueURL creds repo id)) = (j, none) →
        creds.getIssue net repo todo = .ret (j, none)) ∧
      (∀ (j : JSONMap) (e : GoError),
        net.QueryHTTP (queryRequest creds (lit "GET") (getIssueURL creds repo id)) =
            (j, some e) →
          creds.getIssue net repo todo = .ret (none, some e)) := by
  constructor
  · intro j hq
    rw [getIssue_eq net creds repo todo id hid hne, query_of_accepted net creds _ _ hnew, hq]
    rfl
  · intro j e hq
    rw [getIssue_eq net creds repo todo id hid hne, query_of_accepted net creds _ _ hnew, hq]
    rfl

/-- Witness of C13: an issue object comes back as it is; the error `timeout` comes
back as it is, the object that came with it dropped. -/
theorem C13_get_returns_transport_witness :
    GiteaCredentials.getIssue
        (mockNet (some [(lit "title", .string (lit "fix bug")), (lit "iid", .number float42)], none))
        ⟨lit "gitea.example.com", lit "t0k"⟩ (lit "owner/name")
        { exampleTodo with ID := some (lit "#42") } =
      .ret (some [(lit "title", .string (lit "fix bug")), (lit "iid", .number float42)], none) ∧
    GiteaCredentials.getIssue
        (mockNet (some [(lit "message", .string (lit "half"))], some ⟨lit "timeout"⟩))
        ⟨lit "gitea.example.com", lit "t0k"⟩ (lit "owner/name")
        { exampleTodo with ID := some (lit "#42") } =
      .ret (none, some ⟨lit "timeout"⟩) :=
  ⟨(C13_get_returns_transport
      (mockNet (some [(lit "title", .string (lit "fix bug")), (lit "iid", .number float42)], none))
      ⟨lit "gitea.example.com", lit "t0k"⟩ (lit "owner/name") (lit "#42")
      { exampleTodo with ID := some (lit "#42") } rfl (by decide) rfl).1 _ rfl,
    (C13_get_returns_transport
      (mockNet (some [(lit "message", .string (lit "half"))], some ⟨lit "timeout"⟩))
      ⟨lit "gitea.example.com", lit "t0k"⟩ (lit "owner/name") (lit "#42")
      { exampleTodo with ID := some (lit "#42") } rfl (by decide) rfl).2 _ _ rfl⟩

/-- C14, as amended: when the transport succeeds with a JSON object in which `iid` is
missing or is not a number, `postIssue` returns nothing to its caller, neither a
`Todo` nor an error: the type assertion `json["iid"].(float64)` panics. -/
theorem C14_malformed_iid_panics {Rest : Type} (P : Platform) (net : Net)
    (creds : GiteaCredentials) (repo body : GoString) (todo : Todo Rest) (json : JSONMap)
    (hnew : net.NewRequestErr (lit "POST") (postIssueURL creds repo todo.Title body) = none)
    (hq : net.QueryHTTP (queryRequest creds (lit "POST")
      (postIssueURL creds repo todo.Title body)) = (json, none))
    (hiid : ∀ f : Float64, json.index (lit "iid") ≠ some (.number f)) :
    creds.postIssue P net repo todo body = .panic := by
  rw [postIssue_eq_result, query_of_accepted net creds _ _ hnew, hq]
  unfold postIssueResult
  dsimp only
  split
  · rename_i f hf
    exact absurd hf (hiid f)
  · rfl

/-- Witness of C14: the response has `iid` as the string `abc`. -/
theorem C14_malformed_iid_panics_witness :
    GiteaCredentials.postIssue amd64
        (mockNet (some [(lit "iid", .string (lit "abc"))], none))
        ⟨lit "gitea.example.com", lit "t0k"⟩ (lit "owner/name") exampleTodo (lit "details") =
      .panic :=
  C14_malformed_iid_panics amd64 (mockNet (some [(lit "iid", .string (lit "abc"))], none))
    ⟨lit "gitea.example.com", lit "t0k"⟩ (lit "owner/name") (lit "details") exampleTodo
    (some [(lit "iid", .string (lit "abc"))]) rfl rfl
    (fun f h => by
      have h2 : JSONMap.index (some [(lit "iid", JSONValue.string (lit "abc"))]) (lit "iid") =
          some (.string (lit "abc")) := rfl
      rw [h2] at h
      injection h with h
      cases h)

/-- C14 fails as stated: with `iid` missing from the response, and with `iid` a
string, `postIssue` panics; it returns no error to the caller, whatever the
error and the `Todo`. -/
theorem C14_counterexample_panic :
    GiteaCredentials.postIssue amd64 (mockNet (some [], none))
        ⟨lit "gitea.example.com", lit "t0k"⟩ (lit "owner/name") exampleTodo (lit "details") =
      .panic ∧
    GiteaCredentials.postIssue amd64 (mockNet (some [(lit "iid", .string (lit "abc"))], none))
        ⟨lit "gitea.example.com", lit "t0k"⟩ (lit "owner/name") exampleTodo (lit "details") =
      .panic ∧
    ∀ (t : Todo Nat) (e : GoError),
      GiteaCredentials.postIssue amd64 (mockNet (some [], none))
          ⟨lit "gitea.example.com", lit "t0k"⟩ (lit "owner/name") exampleTodo (lit "details") ≠
        .ret (t, some e) := by
  have h1 : GiteaCredentials.postIssue amd64 (mockNet (some [], none))
      ⟨lit "gitea.example.com", lit "t0k"⟩ (lit "owner/name") exampleTodo (lit "details") =
      .panic := by decide
  refine ⟨h1, by decide, ?_⟩
  intro t e h
  rw [h1] at h
  cases h

/-! ## Hosts of the parsed credentials -/

theorem head?_splitAux (sep : Byte) (cur s : GoString) :
    (splitAux sep cur s).head? = some (cur ++ s.takeWhile fun b => decide (b ≠ sep)) := by
  induction s generalizing cur with
  | nil => simp [splitAux]
  | cons b s ih =>
    by_cases hb : b = sep
    · simp [splitAux, hb, List.takeWhile_cons]
    · simp [splitAux, hb, List.takeWhile_cons, ih]

theorem head?_Split (sep : Byte) (s : GoString) :
    (Split s sep).head? = some (s.takeWhile fun b => decide (b ≠ sep)) := by
  have h := head?_splitAux sep [] s
  simpa [Split] using h

theorem parse_error_none_iff (raw : GoString) :
    (GiteaCredentialsFromToken raw).2 = none ↔ raw.count colon ≤ 1 := by
  have hl := length_Split colon raw
  unfold GiteaCredentialsFromToken
  generalize Split raw colon = parts at hl
  match parts, hl with
  | [], hl => simp at hl
  | [_], hl =>
    simp at hl
    simp [hl]
  | [_, _], hl =>
    simp at hl
    simp [hl]
  | _ :: _ :: _ :: _, hl =>
    simp at hl
    simp
    omega

theorem host_empty_iff_of_parse (raw : GoString) (c : GiteaCredentials)
    (h : GiteaCredentialsFromToken raw = (c, none)) :
    c.Host = [] ↔ raw.head? = some colon := by
  have hl := length_Split colon raw
  have hh := head?_Split colon raw
  have hg : lit "gitlab.com" ≠ [] := by decide
  unfold GiteaCredentialsFromToken at h
  generalize Split raw colon = parts at hl hh h
  match parts, hl, hh, h with
  | [], hl, _, _ => simp at hl
  | [c0], hl, _, h =>
    simp only [Prod.mk.injEq, and_true] at h
    simp only [List.length_singleton, self_eq_add_left, List.count_eq_zero] at hl
    rw [← h]
    constructor
    · intro h0
      exact absurd h0 hg
    · intro h0
      cases raw with
      | nil => simp at h0
      | cons b t =>
        simp only [List.head?_cons, Option.some.injEq] at h0
        exact absurd (by simp [h0]) hl
  | [c0, c1], hl, hh, h =>
    simp only [Prod.mk.injEq, and_true] at h
    simp only [List.head?_cons, Option.some.injEq] at hh
    rw [← h]
    simp only
    rw [hh]
    cases raw with
    | nil => simp at hl
    | cons b t =>
      by_cases hb : b = colon
      · simp [List.takeWhile_cons, hb]
      · simp [List.takeWhile_cons, hb]
  | _ :: _ :: _ :: _, _, _, h => simp at h

theorem mem_specEnvRecords (tokenEnvar : GoString) (c : GiteaCredentials)
    (h : IssueAPI.gitea c ∈ specEnvRecords tokenEnvar) :
    ∃ e ∈ Split tokenEnvar comma, GiteaCredentialsFromToken e = (c, none) := by
  unfold specEnvRecords at h
  rw [List.mem_filterMap] at h
  obtain ⟨e, he, hc⟩ := h
  refine ⟨e, he, ?_⟩
  rcases hp : GiteaCredentialsFromToken e with ⟨c1, _ | err⟩
  · rw [hp] at hc
    simp only [Option.some.injEq, IssueAPI.gitea.injEq] at hc
    rw [hc]
  · rw [hp] at hc
    simp at hc

theorem getGiteaCredentials_env_split (w : World) (usr : User) (hu : w.Current = .ok usr)
    (creds : List IssueAPI) (hne : w.Getenv (lit "GITLAB_PERSONAL_TOKEN") ≠ []) :
    ∃ fromFiles : List IssueAPI,
      (getGiteaCredentials w.withoutToken []).outcome = .ret fromFiles ∧
      (getGiteaCredentials w creds).outcome =
        .ret (creds ++ specEnvRecords (w.Getenv (lit "GITLAB_PERSONAL_TOKEN")) ++ fromFiles) := by
  have hu0 : w.withoutToken.Current = .ok usr := hu
  refine ⟨_, getGiteaCredentials_ret w.withoutToken usr hu0 [], ?_⟩
  rw [getGiteaCredentials_ret w usr hu creds]
  simp only [Getenv_withoutToken_token, Getenv_withoutToken_xdg, fileRecords_withoutToken]
  simp [hne, World.withoutToken]

/-- C15, as amended: the record of a successful `GiteaCredentialsFromToken` call has
an empty `Host` exactly when the raw string begins with `':'`, and a non-empty
one for every other raw string; hence, in the list that `getGiteaCredentials`
returns for a non-empty `GITLAB_PERSONAL_TOKEN`, every record of the
environment is the record that some comma-separated entry parses to, and its
`Host` is empty exactly when that entry begins with `':'`. -/
theorem C15_host_empty_iff_leading_colon :
    (∀ (raw : GoString) (c : GiteaCredentials), GiteaCredentialsFromToken raw = (c, none) →
      (c.Host = [] ↔ raw.head? = some colon)) ∧
    (∀ (w : World) (usr : User) (creds : List IssueAPI), w.Current = .ok usr →
      w.Getenv (lit "GITLAB_PERSONAL_TOKEN") ≠ [] →
      ∃ fromEnv fromFiles : List IssueAPI,
        (getGiteaCredentials w.withoutToken []).outcome = .ret fromFiles ∧
        (getGiteaCredentials w creds).outcome = .ret (creds ++ fromEnv ++ fromFiles) ∧
        ∀ r ∈ fromEnv, ∃ (c : GiteaCredentials) (e : GoString),
          r = .gitea c ∧ e ∈ Split (w.Getenv (lit "GITLAB_PERSONAL_TOKEN")) comma ∧
            GiteaCredentialsFromToken e = (c, none) ∧
            (c.Host = [] ↔ e.head? = some colon)) := by
  refine ⟨host_empty_iff_of_parse, ?_⟩
  intro w usr creds hu hne
  obtain ⟨fromFiles, h0, h1⟩ := getGiteaCredentials_env_split w usr hu creds hne
  refine ⟨_, fromFiles, h0, h1, ?_⟩
  intro r hr
  cases r with
  | gitea c =>
    obtain ⟨e, he, hp⟩ := mem_specEnvRecords _ c hr
    exact ⟨c, e, rfl, he, hp, host_empty_iff_of_parse e c hp⟩
  | other host =>
    unfold specEnvRecords at hr
    rw [List.mem_filterMap] at hr
    obtain ⟨e, _, hc⟩ := hr
    rcases hp : GiteaCredentialsFromToken e with ⟨c1, _ | err⟩
    · rw [hp] at hc
      simp at hc
    · rw [hp] at hc
      simp at hc

/-- Witness of C15: with `GITLAB_PERSONAL_TOKEN="gitea.example.com:t0k,:tok"` the
resolver returns two records, the first with a host, the second, of the entry
that begins with `':'`, with none. -/
theorem C15_host_empty_iff_leading_colon_witness :
    GiteaCredentialsFromToken (lit "gitea.example.com:t0k") =
        (⟨lit "gitea.example.com", lit "t0k"⟩, none) ∧
      ¬ (lit "gitea.example.com" = ([] : GoString)) ∧
      ∃ fromEnv fromFiles : List IssueAPI,
        (getGiteaCredentials (exampleWorld (lit "gitea.example.com:t0k,:tok") [] []) []).outcome =
          .ret ([] ++ fromEnv ++ fromFiles) ∧
        ∀ r ∈ fromEnv, ∃ (c : GiteaCredentials) (e : GoString),
          r = .gitea c ∧ GiteaCredentialsFromToken e = (c, none) ∧
            (c.Host = [] ↔ e.head? = some colon) := by
  have h := C15_host_empty_iff_leading_colon.1 (lit "gitea.example.com:t0k")
    ⟨lit "gitea.example.com", lit "t0k"⟩ (by decide)
  obtain ⟨fromEnv, fromFiles, _, h1, h2⟩ := C15_host_empty_iff_leading_colon.2
    (exampleWorld (lit "gitea.example.com:t0k,:tok") [] []) ⟨lit "/home/u"⟩ [] rfl (by decide)
  refine ⟨by decide, fun h0 => absurd (h.1 h0) (by decide), fromEnv, fromFiles, h1, ?_⟩
  intro r hr
  obtain ⟨c, e, hrc, _, hp, hiff⟩ := h2 r hr
  exact ⟨c, e, hrc, hp, hiff⟩

/-- C15 fails as stated at the raw string `":tok"`: the call succeeds with an empty
`Host`, and with `GITLAB_PERSONAL_TOKEN=":tok"` the resolver returns that record. -/
theorem C15_counterexample_empty_host :
    GiteaCredentialsFromToken (lit ":tok") = (⟨[], lit "tok"⟩, none) ∧
      (getGiteaCredentials (exampleWorld (lit ":tok") [] []) []).outcome =
        .ret [.gitea ⟨[], lit "tok"⟩] := by
  constructor <;> decide

/-! ## `getIssue` and the ID -/

/-- C16: when `todo.ID` is not `nil` and begins with `'#'`, `getIssue` does not panic,
for every host, repo and token and every transport: the pointer is
dereferenced, the string has a first byte for `[1:]` to drop, and the call
returns what `query` gives. -/
theorem C16_get_no_fault {Rest : Type} (net : Net) (creds : GiteaCredentials)
    (repo s : GoString) (todo : Todo Rest) (hid : todo.ID = some (lit "#" ++ s)) :
    1 ≤ (lit "#" ++ s).length ∧
      creds.getIssue net repo todo ≠ .panic ∧
      ∃ r, creds.getIssue net repo todo = .ret r := by
  have hne : lit "#" ++ s ≠ [] := by simp [lit, utf8]
  have h := getIssue_eq net creds repo todo (lit "#" ++ s) hid hne
  refine ⟨by simp [lit, utf8], ?_, _, h⟩
  rw [h]
  exact fun h0 => Outcome.noConfusion h0

/-- Witness of C16: the ID `#`, with nothing after the `'#'`, on a transport that
fails. -/
theorem C16_get_no_fault_witness :
    GiteaCredentials.getIssue (mockNet (none, some ⟨lit "timeout"⟩))
        ⟨[], []⟩ [] { exampleTodo with ID := some (lit "#") } ≠ .panic :=
  (C16_get_no_fault (mockNet (none, some ⟨lit "timeout"⟩)) ⟨[], []⟩ [] []
    { exampleTodo with ID := some (lit "#") } rfl).2.1

/-- C20: for every ID that is not `nil` and not empty, whatever its first byte,
`getIssue` calls `query` with a URL that ends in `/issues/` and the ID without
its first byte, and returns what `query` gives; when `http.NewRequest` accepts
the URL and the transport succeeds with `j`, the result is `j` with a `nil`
error. -/
theorem C20_get_drops_first_byte {Rest : Type} (net : Net) (creds : GiteaCredentials)
    (repo id : GoString) (todo : Todo Rest) (hid : todo.ID = some id) (hne : id ≠ []) :
    let url := lit "http://" ++ creds.Host ++ lit "/api/v1/repos/" ++ QueryEscape repo ++
      lit "/issues/" ++ id.drop 1
    creds.getIssue net repo todo = .ret (getIssueResult (creds.query net (lit "GET") url)) ∧
      (lit "/issues/" ++ id.drop 1) <:+ url ∧
      (net.NewRequestErr (lit "GET") url = none →
        ∀ j : JSONMap,
          net.QueryHTTP
              { Method := lit "GET", URL := url,
                Header := [(lit "Token", [creds.PersonalToken])] } = (j, none) →
            creds.getIssue net repo todo = .ret (j, none)) := by
  intro url
  have h := getIssue_eq net creds repo todo id hid hne
  refine ⟨h, ⟨lit "http://" ++ creds.Host ++ lit "/api/v1/repos/" ++ QueryEscape repo,
    by simp [url]⟩, ?_⟩
  intro hnew j hq
  have hq1 : creds.query net (lit "GET") (getIssueURL creds repo id) = (j, none) := by
    have hq0 := query_of_accepted net creds (lit "GET") url hnew
    rw [queryRequest_eq, hq] at hq0
    exact hq0
  rw [h, hq1]
  rfl

/-- Witness of C20: the ID `42` requests `/issues/2` and no error comes back. -/
theorem C20_get_drops_first_byte_witness :
    GiteaCredentials.getIssue echoNet ⟨lit "gitea.example.com", lit "t0k"⟩
        (lit "owner") { exampleTodo with ID := some (lit "42") } =
      .ret (some [(lit "method", .string (lit "GET")),
        (lit "url", .string (lit "http://gitea.example.com/api/v1/repos/owner/issues/2")),
        (lit "token", .string (lit "t0k"))], none) := by
  have h := (C20_get_drops_first_byte echoNet ⟨lit "gitea.example.com", lit "t0k"⟩
    (lit "owner") (lit "42") { exampleTodo with ID := some (lit "42") } rfl (by decide)).1
  rw [h]
  rfl

/-! ## The repository in the URL -/

theorem filterMap_eq_map_filter {α β : Type} (f : α → Option β) (p : α → Bool) (g : α → β)
    (h : ∀ a, f a = if p a = true then some (g a) else none) (l : List α) :
    l.filterMap f = (l.filter p).map g := by
  induction l with
  | nil => rfl
  | cons a l ih =>
    by_cases hp : p a = true
    · simp [List.filterMap_cons, h a, hp, ih]
    · simp [List.filterMap_cons, h a, hp, ih]

theorem specEnvRecords_eq_map (tokenEnvar : GoString) :
    specEnvRecords tokenEnvar =
      ((Split tokenEnvar comma).filter fun e => decide (e.count colon ≤ 1)).map
        fun e => IssueAPI.gitea (GiteaCredentialsFromToken e).1 := by
  unfold specEnvRecords
  apply filterMap_eq_map_filter
  intro e
  have hiff := parse_error_none_iff e
  rcases hp : GiteaCredentialsFromToken e with ⟨c, _ | err⟩
  · rw [hp] at hiff
    have hc : e.count colon ≤ 1 := hiff.1 rfl
    simp [hc]
  · rw [hp] at hiff
    have hc : ¬ e.count colon ≤ 1 := fun h0 => absurd (hiff.2 h0) (by simp)
    simp [hc]

/-- C18: for every initial list, the list returned is the initial list, unchanged,
followed by the records that the resolver returns from the empty list, those of
the environment and of the files; so the first record for a host `h` in the
initial list is the first record for `h` in the list returned. -/
theorem C18_initial_list_first (w : World) (usr : User) (hu : w.Current = .ok usr)
    (creds : List IssueAPI) :
    ∃ resolved : List IssueAPI,
      (getGiteaCredentials w []).outcome = .ret resolved ∧
      (getGiteaCredentials w creds).outcome = .ret (creds ++ resolved) ∧
      creds <+: creds ++ resolved ∧
      ∀ (h : GoString) (r : IssueAPI),
        creds.find? (fun x => decide (x.getHost = h)) = some r →
          (creds ++ resolved).find? (fun x => decide (x.getHost = h)) = some r := by
  refine ⟨_, getGiteaCredentials_ret w usr hu [], ?_, List.prefix_append _ _, ?_⟩
  · rw [getGiteaCredentials_ret w usr hu creds]
    simp only [List.nil_append, List.append_assoc]
  · intro h r hr
    rw [List.find?_append, hr]
    rfl

/-- Witness of C18: the caller's record for the host `b` comes before the records
for `b` of the variable and of the legacy file. -/
theorem C18_initial_list_first_witness :
    (getGiteaCredentials
        (exampleWorld (lit "a,b:c") [] [lit "/home/u/.snitch/gitlab.ini"])
        [.other (lit "b")]).outcome =
      .ret ([.other (lit "b")] ++
        [.gitea ⟨lit "gitlab.com", lit "a"⟩, .gitea ⟨lit "b", lit "c"⟩,
          .gitea ⟨lit "b", lit "filetok"⟩, .gitea ⟨lit "nokey.example", []⟩]) ∧
      List.find? (fun x : IssueAPI => decide (x.getHost = lit "b"))
        ([.other (lit "b")] ++
          [.gitea ⟨lit "gitlab.com", lit "a"⟩, .gitea ⟨lit "b", lit "c"⟩,
            .gitea ⟨lit "b", lit "filetok"⟩, .gitea ⟨lit "nokey.example", []⟩]) =
        some (.other (lit "b")) := by
  obtain ⟨resolved, h0, h1, _, h3⟩ := C18_initial_list_first
    (exampleWorld (lit "a,b:c") [] [lit "/home/u/.snitch/gitlab.ini"]) ⟨lit "/home/u"⟩ rfl
    [.other (lit "b")]
  have e0 : (getGiteaCredentials
      (exampleWorld (lit "a,b:c") [] [lit "/home/u/.snitch/gitlab.ini"]) []).outcome =
      .ret [.gitea ⟨lit "gitlab.com", lit "a"⟩, .gitea ⟨lit "b", lit "c"⟩,
        .gitea ⟨lit "b", lit "filetok"⟩, .gitea ⟨lit "nokey.example", []⟩] := by decide
  rw [e0] at h0
  injection h0 with h0
  subst h0
  exact ⟨h1, h3 (lit "b") (.other (lit "b")) (by decide)⟩

/-- C19: an empty `GITLAB_PERSONAL_TOKEN` adds no record to the initial list and
the records of the files; a non-empty one adds, between the two, one record for
every comma-separated entry with at most one `':'`, in the order of the entries,
so as many records as there are such entries; an empty entry is one of them
and its record is `gitlab.com` with an empty token, so that there are at least
as many such records as empty entries. -/
theorem C19_env_record_count (w : World) (usr : User) (hu : w.Current = .ok usr)
    (creds : List IssueAPI) :
    let token := w.Getenv (lit "GITLAB_PERSONAL_TOKEN")
    let entries := Split token comma
    let parsed := entries.filter fun e => decide (e.count colon ≤ 1)
    let fromEnv := parsed.map fun e => IssueAPI.gitea (GiteaCredentialsFromToken e).1
    ∃ fromFiles : List IssueAPI,
      (getGiteaCredentials w.withoutToken []).outcome = .ret fromFiles ∧
      (token = [] → (getGiteaCredentials w creds).outcome = .ret (creds ++ fromFiles)) ∧
      (token ≠ [] →
        (getGiteaCredentials w creds).outcome = .ret (creds ++ fromEnv ++ fromFiles)) ∧
      fromEnv.length = parsed.length ∧
      GiteaCredentialsFromToken [] = (⟨lit "gitlab.com", []⟩, none) ∧
      entries.count [] ≤ fromEnv.count (.gitea ⟨lit "gitlab.com", []⟩) := by
  intro token entries parsed fromEnv
  have hu0 : w.withoutToken.Current = .ok usr := hu
  have hret := getGiteaCredentials_ret w usr hu creds
  have hempty : GiteaCredentialsFromToken [] = (⟨lit "gitlab.com", []⟩, none) := by decide
  refine ⟨_, getGiteaCredentials_ret w.withoutToken usr hu0 [], ?_, ?_, ?_, hempty, ?_⟩
  · intro ht
    rw [hret]
    simp only [Getenv_withoutToken_token, Getenv_withoutToken_xdg, fileRecords_withoutToken]
    simp [show w.Getenv (lit "GITLAB_PERSONAL_TOKEN") = [] from ht, World.withoutToken]
  · intro ht
    rw [hret]
    simp only [Getenv_withoutToken_token, Getenv_withoutToken_xdg, fileRecords_withoutToken]
    have hne : w.Getenv (lit "GITLAB_PERSONAL_TOKEN") ≠ [] := ht
    have hmap := specEnvRecords_eq_map (w.Getenv (lit "GITLAB_PERSONAL_TOKEN"))
    simp [hne, World.withoutToken, hmap, fromEnv, parsed, entries, token]
  · simp [fromEnv]
  · have h1 : entries.count [] = parsed.count [] := by
      simp only [parsed]
      rw [List.count_filter]
      simp
    have h2 := List.count_le_count_map parsed
      (fun e => IssueAPI.gitea (GiteaCredentialsFromToken e).1) []
    simp only [hempty] at h2
    rw [h1]
    exact h2

/-- Witness of C19: `"a,,b:c:d,"` has four entries, the second and the fourth empty,
the third with two `':'`; the resolver returns three records, two of them
`gitlab.com` with an empty token. The empty variable gives none. -/
theorem C19_env_record_count_witness :
    (getGiteaCredentials (exampleWorld (lit "a,,b:c:d,") [] []) []).outcome =
        .ret [.gitea ⟨lit "gitlab.com", lit "a"⟩, .gitea ⟨lit "gitlab.com", []⟩,
          .gitea ⟨lit "gitlab.com", []⟩] ∧
      (getGiteaCredentials (exampleWorld [] [] []) []).outcome = .ret [] := by
  obtain ⟨fromFiles, h0, _, h2, _⟩ :=
    C19_env_record_count (exampleWorld (lit "a,,b:c:d,") [] []) ⟨lit "/home/u"⟩ rfl []
  have e0 : (getGiteaCredentials (exampleWorld (lit "a,,b:c:d,") [] []).withoutToken []).outcome =
      .ret [] := by decide
  rw [e0] at h0
  injection h0 with h0
  subst h0
  refine ⟨?_, by decide⟩
  rw [h2 (by decide)]
  decide

end Snitch
